import Mathlib

/-!
Verification development for the battletech-api ingestion and reconciliation
pipeline (Rust crates `scraper`).  The definitions below are a shallow
embedding of the relevant source functions:

* `crates/scraper/src/parse.rs` — the format-A (MTF) parser, loadout
  de-duplication, slug generation;
* `crates/scraper/src/mul/matcher.rs` — the identity matcher;
* `crates/scraper/src/mul/quicklist.rs` — registry unit accessors;
* `crates/scraper/src/mul/import.rs` — field reconciliation;
* `crates/scraper/src/mul/client.rs` — the HTTP retry policy.

Rust strings are modelled as Lean `String` (a wrapper around `List Char`);
the string primitives used by the source (`trim`, `split_once`, `splitn`,
`trim_end_matches`, `starts_with`, …) are embedded below character by
character.  `f64` values that the source merely parses and passes through
(tonnage) are modelled as exact rationals; no claim depends on
floating-point rounding.  HTTP and database effects are modelled by pure
state transformers over explicit records.
-/

/-- Rust `char::is_ascii_alphanumeric`. -/
def isAsciiAlphanumeric (c : Char) : Bool :=
  (48 ≤ c.toNat ∧ c.toNat ≤ 57) ∨ (65 ≤ c.toNat ∧ c.toNat ≤ 90) ∨
    (97 ≤ c.toNat ∧ c.toNat ≤ 122)

/-- Rust `char::to_ascii_lowercase`. -/
def toAsciiLower (c : Char) : Char :=
  if 65 ≤ c.toNat ∧ c.toNat ≤ 90 then Char.ofNat (c.toNat + 32) else c

/-- Rust `char::to_ascii_uppercase`. -/
def toAsciiUpper (c : Char) : Char :=
  if 97 ≤ c.toNat ∧ c.toNat ≤ 122 then Char.ofNat (c.toNat - 32) else c

/-- Rust `str::trim` on the character list (ASCII whitespace; the scraper's
inputs are ASCII). -/
def trimChars (l : List Char) : List Char :=
  ((l.dropWhile Char.isWhitespace).reverse.dropWhile Char.isWhitespace).reverse

/-- Rust `str::trim`. -/
def strTrim (s : String) : String := ⟨trimChars s.data⟩

/-- Rust `str::to_lowercase` (the scraper only lowercases ASCII data). -/
def strToLower (s : String) : String := ⟨s.data.map toAsciiLower⟩

/-- Rust `str::to_uppercase` (ASCII data). -/
def strToUpper (s : String) : String := ⟨s.data.map toAsciiUpper⟩

/-- Rust `str::starts_with`. -/
def strStartsWith (s pre : String) : Bool := pre.data.isPrefixOf s.data

/-- Rust `str::ends_with`. -/
def strEndsWith (s suf : String) : Bool := suf.data.isSuffixOf s.data

/-- Rust `str::contains(char)`. -/
def strContainsChar (s : String) (c : Char) : Bool := s.data.contains c

/-- Substring containment, Rust `str::contains(&str)`. -/
def hasSubstr : List Char → List Char → Bool
  | [], pat => pat.isEmpty
  | l@(_ :: t), pat => pat.isPrefixOf l || hasSubstr t pat

/-- Rust `str::contains(&str)` on `String`. -/
def strContainsSub (s pat : String) : Bool := hasSubstr s.data pat.data

/-- Split a character list at the first occurrence of `c` (the separator is
dropped); `none` when `c` does not occur.  Backs Rust `split_once`,
`splitn` and the first-colon split. -/
def splitFirstAt (c : Char) : List Char → Option (List Char × List Char)
  | [] => none
  | x :: t =>
    if x = c then some ([], t)
    else (splitFirstAt c t).map (fun p => (x :: p.1, p.2))

/-- Rust `str::splitn(2, c)`: one or two pieces. -/
def splitN2 (c : Char) (l : List Char) : List (List Char) :=
  match splitFirstAt c l with
  | none => [l]
  | some (a, b) => [a, b]

/-- Rust `str::splitn(3, c)`: between one and three pieces, the last piece
keeps any further separators. -/
def splitN3 (c : Char) (l : List Char) : List (List Char) :=
  match splitFirstAt c l with
  | none => [l]
  | some (a, r) =>
    match splitFirstAt c r with
    | none => [a, r]
    | some (b, r2) => [a, b, r2]

/-- Rust `str::trim_end_matches(&str)`: repeatedly strip the suffix while it
matches (fuel-indexed; each strip removes at least one character, so
`l.length` steps always suffice). -/
def dropSufFuel (suf : List Char) : Nat → List Char → List Char
  | 0, l => l
  | n + 1, l =>
    if suf ≠ [] ∧ suf.isSuffixOf l then
      dropSufFuel suf n (l.take (l.length - suf.length))
    else l

/-- Rust `str::trim_end_matches(&str)`. -/
def dropSuffixAll (suf l : List Char) : List Char := dropSufFuel suf l.length l

/-- Rust `str::trim_end_matches(char)` for `'-'` as used by `to_slug`. -/
def dropTrailingHyphens (l : List Char) : List Char :=
  (l.reverse.dropWhile (· = '-')).reverse

/-- Rust `str::trim_matches(char)` for `'"'` as used for descriptions. -/
def trimQuoteChars (l : List Char) : List Char :=
  ((l.dropWhile (· = '"')).reverse.dropWhile (· = '"')).reverse

/-- Rust `str::strip_suffix`. -/
def stripSuffixOpt (suf : String) (s : String) : Option String :=
  if suf.data.isSuffixOf s.data then
    some ⟨s.data.take (s.data.length - suf.data.length)⟩
  else none

/-- Rust `str::split_whitespace` on the character list: maximal non-blank
words, empties discarded. -/
def splitWsAux (acc : List Char) : List Char → List (List Char)
  | [] => if acc = [] then [] else [acc.reverse]
  | c :: t =>
    if c.isWhitespace then
      if acc = [] then splitWsAux [] t else acc.reverse :: splitWsAux [] t
    else splitWsAux (c :: acc) t

/-- Rust `str::split_whitespace`. -/
def splitWhitespaceL (l : List Char) : List (List Char) := splitWsAux [] l

/-- Value of a digit list (most significant first). -/
def digitsToNat (l : List Char) : Nat :=
  l.foldl (fun a c => a * 10 + (c.toNat - 48)) 0

/-- Rust `str::parse::<i32>()`: optional sign, one or more ASCII digits,
value within the `i32` range. -/
def parseI32 (s : String) : Option Int :=
  let p : Bool × List Char :=
    match s.data with
    | '+' :: t => (false, t)
    | '-' :: t => (true, t)
    | t => (false, t)
  let ds := p.2
  if ds.isEmpty ∨ ¬ (ds.all Char.isDigit) then none
  else
    let v : Int := if p.1 then -(digitsToNat ds : Int) else (digitsToNat ds : Int)
    if v < -(2 ^ 31 : Int) ∨ (2 ^ 31 - 1 : Int) < v then none else some v

/-- Exact rational value of a sign/integer-part/fraction-part decomposition. -/
def ratOfParts (neg : Bool) (ip fp : List Char) : Rat :=
  let q : Rat := (digitsToNat ip : Rat) + (digitsToNat fp : Rat) / ((10 : Rat) ^ fp.length)
  if neg then -q else q

/-- Rust `str::parse::<f64>()` restricted to plain decimal literals
(optional sign, digits, optional single decimal point); the exact value is
kept as a rational.  The source only parses and passes these values
through, so no claim depends on floating-point rounding or on the
`inf`/`NaN`/exponent forms. -/
def parseF64 (s : String) : Option Rat :=
  let p : Bool × List Char :=
    match s.data with
    | '+' :: t => (false, t)
    | '-' :: t => (true, t)
    | t => (false, t)
  let rest := p.2
  match splitFirstAt '.' rest with
  | none =>
    if rest ≠ [] ∧ rest.all Char.isDigit then
      -- integer literal: no fractional part (same value as
      -- `ratOfParts p.1 rest []`, kept division-free)
      some (if p.1 then -(digitsToNat rest : Rat) else (digitsToNat rest : Rat))
    else none
  | some (ip, fp) =>
    if fp.contains '.' then none
    else if (ip ≠ [] ∨ fp ≠ []) ∧ ip.all Char.isDigit ∧ fp.all Char.isDigit then
      some (ratOfParts p.1 ip fp)
    else none

/-! ## Slug generation (`parse.rs::to_slug`) -/

/-- The character loop of `to_slug` with the accumulated slug and the
`prev_hyphen` flag, exactly as in the Rust source. -/
def slugAux (acc : List Char) (prevHyphen : Bool) : List Char → List Char
  | [] => acc
  | c :: cs =>
    if isAsciiAlphanumeric c then slugAux (acc ++ [toAsciiLower c]) false cs
    else if ¬ prevHyphen ∧ ¬ acc.isEmpty then slugAux (acc ++ ['-']) true cs
    else slugAux acc prevHyphen cs

/-- `parse.rs::to_slug`: lowercase alphanumeric runs joined by single
hyphens, leading and trailing hyphens trimmed. -/
def to_slug (s : String) : String :=
  ⟨dropTrailingHyphens (slugAux [] true s.data)⟩

/-! ## Canonical parsed model (`parse.rs`) -/

/-- `parse.rs::UnitType`. -/
inductive UnitType where
  | mech | vehicle | fighter | other
  deriving DecidableEq, Repr

/-- `parse.rs::TechBase`. -/
inductive TechBase where
  | innerSphere | clan | mixed | primitive
  deriving DecidableEq, Repr

/-- `parse.rs::RulesLevel`. -/
inductive RulesLevel where
  | introductory | standard | advanced | experimental | unofficial
  deriving DecidableEq, Repr

/-- `TechBase::from_str`. -/
def TechBase.fromStr (s : String) : TechBase :=
  let lower := strToLower s
  if strContainsSub lower "clan" ∧ ¬ strContainsSub lower "inner" then .clan
  else if strContainsSub lower "mixed" then .mixed
  else if strContainsSub lower "primitive" then .primitive
  else .innerSphere

/-- `RulesLevel::from_int`. -/
def RulesLevel.fromInt (n : Int) : RulesLevel :=
  if n = 0 then .introductory
  else if n = 1 then .standard
  else if n = 2 then .advanced
  else if n = 3 then .experimental
  else if n = 4 ∨ n = 5 then .unofficial
  else .standard

/-- `parse.rs::ParsedLocation` (the `structure` field is named
`structurePoints` because `structure` is a Lean keyword). -/
structure ParsedLocation where
  location : String
  armor : Option Int
  rear_armor : Option Int
  structurePoints : Option Int
  deriving DecidableEq, Repr

/-- `parse.rs::ParsedLoadoutEntry`. -/
structure ParsedLoadoutEntry where
  equipment : String
  location : Option String
  quantity : Int
  is_rear : Bool
  deriving DecidableEq, Repr

/-- `parse.rs::ParsedMechData`. -/
structure ParsedMechData where
  config : String
  is_omnimech : Bool
  engine_rating : Option Int
  engine_type : Option String
  walk_mp : Option Int
  jump_mp : Option Int
  heat_sink_count : Option Int
  heat_sink_type : Option String
  structure_type : Option String
  armor_type : Option String
  gyro_type : Option String
  cockpit_type : Option String
  myomer_type : Option String
  deriving DecidableEq, Repr

/-- `parse.rs::ParsedUnit`. -/
structure ParsedUnit where
  chassis : String
  model : String
  unit_type : UnitType
  tech_base : TechBase
  rules_level : RulesLevel
  intro_year : Option Int
  source : Option String
  tonnage : Rat
  locations : List ParsedLocation
  loadout : List ParsedLoadoutEntry
  quirks : List String
  description : Option String
  mech_data : Option ParsedMechData
  deriving DecidableEq, Repr

/-- `parse.rs::mtf_weapon_location`. -/
def mtfWeaponLocation (loc : String) : Option String :=
  let k := strTrim (strToLower loc)
  if k = "left arm" ∨ k = "la" then some "left_arm"
  else if k = "right arm" ∨ k = "ra" then some "right_arm"
  else if k = "left torso" ∨ k = "lt" then some "left_torso"
  else if k = "right torso" ∨ k = "rt" then some "right_torso"
  else if k = "center torso" ∨ k = "ct" then some "center_torso"
  else if k = "head" ∨ k = "hd" then some "head"
  else if k = "left leg" ∨ k = "ll" then some "left_leg"
  else if k = "right leg" ∨ k = "rl" then some "right_leg"
  else none

/-- `parse.rs::mtf_location_header`. -/
def mtfLocationHeader (key : String) : Option String :=
  if key = "left arm" then some "left_arm"
  else if key = "right arm" then some "right_arm"
  else if key = "left torso" then some "left_torso"
  else if key = "right torso" then some "right_torso"
  else if key = "center torso" then some "center_torso"
  else if key = "head" then some "head"
  else if key = "left leg" then some "left_leg"
  else if key = "right leg" then some "right_leg"
  else none

/-- `parse.rs::is_structural_component`. -/
def isStructuralComponent (s : String) : Bool :=
  (s = "Shoulder" ∨ s = "Upper Arm Actuator" ∨ s = "Lower Arm Actuator" ∨
    s = "Hand Actuator" ∨ s = "Hip" ∨ s = "Upper Leg Actuator" ∨
    s = "Lower Leg Actuator" ∨ s = "Foot Actuator" ∨ s = "Life Support" ∨
    s = "Sensors" ∨ s = "Cockpit" ∨ s = "Gyro" ∨ s = "Compact Gyro" ∨
    s = "Heavy Duty Gyro" ∨ s = "XL Gyro" ∨ s = "Fusion Engine" ∨
    s = "XL Engine" ∨ s = "Light Engine" ∨ s = "Compact Engine" ∨
    s = "Primitive Fusion Engine" ∨ s = "ICE Engine" ∨ s = "-Empty-") ∨
  strContainsSub s "Engine" ∨ strContainsSub s "Endo Steel" ∨
  strContainsSub s "Ferro-Fibrous" ∨ strContainsSub s "Reactive Armor" ∨
  strContainsSub s "Stealth Armor" ∨ strContainsSub s "CASE"

/-- Insert an entry into a loadout: add its quantity onto the first entry
with the same (equipment, location, rear-facing) key, or append it.  This
is the `iter_mut().find(..)` / `push` pattern used at all three insertion
sites in `parse.rs` (`+= 1` is the special case of a quantity-1 entry). -/
def addToFirst : List ParsedLoadoutEntry → ParsedLoadoutEntry → List ParsedLoadoutEntry
  | [], e => [e]
  | x :: xs, e =>
    if x.equipment = e.equipment ∧ x.location = e.location ∧ x.is_rear = e.is_rear then
      { x with quantity := x.quantity + e.quantity } :: xs
    else x :: addToFirst xs e

/-- `parse.rs::dedup_loadout`. -/
def dedupLoadout (entries : List ParsedLoadoutEntry) : List ParsedLoadoutEntry :=
  entries.foldl addToFirst []

/-- Iterate the find-or-insert step `k` times (the `for _ in 0..qty` loop
of `parse_weapon_line`). -/
def iterInsert (e : ParsedLoadoutEntry) : Nat → List ParsedLoadoutEntry → List ParsedLoadoutEntry
  | 0, l => l
  | k + 1, l => iterInsert e k (addToFirst l e)

/-- The quantity-prefix split inside `parse_weapon_line`:
`name_part.split_once(' ').filter(|(a, _)| a.parse::<i32>().is_ok())`. -/
def splitQty (namePart : String) : Int × String :=
  match splitFirstAt ' ' namePart.data with
  | some (a, b) =>
    match parseI32 ⟨a⟩ with
    | some n => (n, strTrim ⟨b⟩)
    | none => (1, namePart)
  | none => (1, namePart)

/-- The pure decoding part of `parse.rs::parse_weapon_line`: the
quantity-1 entry to insert and how many times the `for _ in 0..qty` loop
inserts it; `none` when the line is rejected (no pieces, empty or
`-Empty-` name, or no location piece). -/
def weaponLineDecode (line : String) : Option (ParsedLoadoutEntry × Nat) :=
  match splitN3 ',' line.data with
  | [] => none
  | p0 :: rest =>
    let namePart := strTrim ⟨p0⟩
    let qe := splitQty namePart
    if qe.2 = "" ∨ qe.2 = "-Empty-" then none
    else
      match rest.head? with
      | none => none
      | some p1 =>
        let rawLoc := strTrim ⟨p1⟩
        let isRear := strEndsWith rawLoc "(R)"
        let locClean := strTrim ⟨dropSuffixAll "(R)".data rawLoc.data⟩
        let loc := mtfWeaponLocation locClean
        some (⟨qe.2, loc, 1, isRear⟩, qe.1.toNat)

/-- `parse.rs::parse_weapon_line`: decode the line, then run the
find-or-insert loop that many times on the shared loadout vector. -/
def parseWeaponLine (line : String) (loadout : List ParsedLoadoutEntry) :
    List ParsedLoadoutEntry :=
  match weaponLineDecode line with
  | none => loadout
  | some (e, n) => iterInsert e n loadout

/-! ## The MTF (format-A) parser, `parse.rs::parse_mtf`

The Rust parser consumes `content.lines()`; the embedding takes the list of
lines directly.  The first pass is a left fold of `pass1Step` over the
lines; the second (weapons) pass is a left fold of `pass2Step`. -/

/-- Classification of one trimmed line, mirroring the control flow at the
top of the first-pass loop: comment/blank, continuation (no colon),
section header (empty value) or key/value. -/
inductive LineClass where
  | skip
  | cont (line : String)
  | header (key : String)
  | kv (key val : String)
  deriving DecidableEq, Repr

/-- Classify one raw line as the first-pass loop does. -/
def classifyLine (rawLine : String) : LineClass :=
  let line := strTrim rawLine
  if strStartsWith line "#" ∨ line = "" then .skip
  else
    match splitFirstAt ':' line.data with
    | none => .cont line
    | some (k, v) =>
      let key := strToLower (strTrim ⟨k⟩)
      let val := strTrim ⟨v⟩
      if val = "" then .header key else .kv key val

/-- The armor accumulator: `HashMap<String, (Option<i32>, Option<i32>)>`
modelled as an association list with unique keys ((front, rear) pairs). -/
abbrev ArmorMap := List (String × (Option Int × Option Int))

/-- Lookup, `HashMap::get`. -/
def armorGet (m : ArmorMap) (k : String) : Option (Option Int × Option Int) :=
  match m with
  | [] => none
  | (k', v) :: rest => if k' = k then some v else armorGet rest k

/-- `armor.entry(k).or_default()` followed by a functional update of the
(front, rear) pair. -/
def armorUpdate (k : String) (f : Option Int × Option Int → Option Int × Option Int) :
    ArmorMap → ArmorMap
  | [] => [(k, f (none, none))]
  | (k', v) :: rest =>
    if k' = k then (k', f v) :: rest else (k', v) :: armorUpdate k f rest

/-- `armor.entry(k).or_default().0 = x`. -/
def armorSetFront (k : String) (x : Option Int) (m : ArmorMap) : ArmorMap :=
  armorUpdate k (fun p => (x, p.2)) m

/-- `armor.entry(k).or_default().1 = x`. -/
def armorSetRear (k : String) (x : Option Int) (m : ArmorMap) : ArmorMap :=
  armorUpdate k (fun p => (p.1, x)) m

/-- The armor-line handling at the end of the key/value branch:
`key.strip_suffix(" armor")`, rear-torso redirection for `RTL`/`RTR`/`RTC`,
front-armor entry otherwise. -/
def armorLineApply (key val : String) (m : ArmorMap) : ArmorMap :=
  match stripSuffixOpt " armor" key with
  | none => m
  | some rest =>
    let locCode := strToUpper (strTrim rest)
    if locCode = "" then m
    else if locCode = "RTL" then armorSetRear "LT" (parseI32 val) m
    else if locCode = "RTR" then armorSetRear "RT" (parseI32 val) m
    else if locCode = "RTC" then armorSetRear "CT" (parseI32 val) m
    else armorSetFront locCode (parseI32 val) m

/-- First-pass parser state: every local accumulator of `parse_mtf`. -/
structure Pass1State where
  chassis : String
  model : String
  config : String
  is_omnimech : Bool
  engine_rating : Option Int
  engine_type : Option String
  walk_mp : Option Int
  jump_mp : Option Int
  heat_sink_count : Option Int
  heat_sink_type : Option String
  structure_type : Option String
  armor_type : Option String
  gyro_type : Option String
  cockpit_type : Option String
  myomer_type : Option String
  tech_base : TechBase
  rules_level : RulesLevel
  intro_year : Option Int
  source : Option String
  tonnage : Option Rat
  description : Option String
  quirks : List String
  armor : ArmorMap
  loadout : List ParsedLoadoutEntry
  current_loc : Option String
  deriving DecidableEq, Repr

/-- Initial first-pass state. -/
def initPass1 : Pass1State :=
  ⟨"", "", "", false, none, none, none, none, none, none, none, none, none,
    none, none, .innerSphere, .standard, none, none, none, none, [], [], [], none⟩

/-- The `config` arm: first whitespace-separated word, falling back to the
whole value (`val.split_whitespace().next().unwrap_or(&val)`). -/
def firstWordOr (val : String) : String :=
  match splitWhitespaceL val.data with
  | [] => val
  | w :: _ => ⟨w⟩

/-- The `engine` arm: split once on a space and keep a numeric rating. -/
def applyEngine (val : String) (s : Pass1State) : Pass1State :=
  match splitN2 ' ' val.data with
  | [a, b] =>
    match parseI32 ⟨a⟩ with
    | some rating => { s with engine_rating := some rating, engine_type := some ⟨b⟩ }
    | none => { s with engine_type := some val }
  | _ => { s with engine_type := some val }

/-- The `heat sinks` arm. -/
def applyHeatSinks (val : String) (s : Pass1State) : Pass1State :=
  match splitN2 ' ' val.data with
  | [a, b] =>
    match parseI32 ⟨a⟩ with
    | some count => { s with heat_sink_count := some count, heat_sink_type := some ⟨b⟩ }
    | none => { s with heat_sink_type := some val }
  | _ =>
    match parseI32 val with
    | some count => { s with heat_sink_count := some count }
    | none => s

/-- The recognized keys of the `match key.as_str()` dispatch. -/
inductive KeyKind where
  | chassisK | modelK | configK | techbaseK | eraK | sourceK | rulesK
  | massK | engineK | walkK | jumpK | heatK | structK | armorK | gyroK
  | cockpitK | myomerK | quirkK | overviewK | otherK
  deriving DecidableEq, Repr

/-- Classify a key string, mirroring the `match key.as_str()` arms. -/
def keyKind (key : String) : KeyKind :=
  if key = "chassis" then .chassisK
  else if key = "model" then .modelK
  else if key = "config" then .configK
  else if key = "techbase" ∨ key = "tech base" then .techbaseK
  else if key = "era" then .eraK
  else if key = "source" then .sourceK
  else if key = "rules level" then .rulesK
  else if key = "mass" then .massK
  else if key = "engine" then .engineK
  else if key = "walk mp" then .walkK
  else if key = "jump mp" then .jumpK
  else if key = "heat sinks" then .heatK
  else if key = "structure" then .structK
  else if key = "armor" then .armorK
  else if key = "gyro" then .gyroK
  else if key = "cockpit" then .cockpitK
  else if key = "myomer" then .myomerK
  else if key = "quirk" then .quirkK
  else if key = "overview" then .overviewK
  else .otherK

/-- The big `match key.as_str()` dispatch of the first pass (without the
armor-suffix handling that follows it). -/
def applyKVmatch (key val : String) (s : Pass1State) : Pass1State :=
  match keyKind key with
  | .chassisK => { s with chassis := val }
  | .modelK => { s with model := val }
  | .configK =>
    { s with is_omnimech := strContainsSub (strToLower val) "omnimech",
             config := firstWordOr val }
  | .techbaseK => { s with tech_base := TechBase.fromStr val }
  | .eraK => { s with intro_year := parseI32 val }
  | .sourceK => { s with source := some val }
  | .rulesK =>
    { s with rules_level := ((parseI32 val).map RulesLevel.fromInt).getD .standard }
  | .massK => { s with tonnage := parseF64 val }
  | .engineK => applyEngine val s
  | .walkK => { s with walk_mp := parseI32 val }
  | .jumpK => { s with jump_mp := parseI32 val }
  | .heatK => applyHeatSinks val s
  | .structK => { s with structure_type := some val }
  | .armorK => { s with armor_type := some val }
  | .gyroK => { s with gyro_type := some val }
  | .cockpitK => { s with cockpit_type := some val }
  | .myomerK => { s with myomer_type := some val }
  | .quirkK => { s with quirks := s.quirks ++ [to_slug val] }
  | .overviewK => { s with description := some ⟨trimQuoteChars val.data⟩ }
  | .otherK => s

/-- The key/value dispatch of the first pass: the `match key.as_str()`
arms followed by the armor-suffix handling.  The caller has already reset
`current_loc` to `none`. -/
def applyKV (key val : String) (s : Pass1State) : Pass1State :=
  let s1 := applyKVmatch key val s
  { s1 with armor := armorLineApply key val s1.armor }

/-- One step of the first pass. -/
def pass1Step (s : Pass1State) (rawLine : String) : Pass1State :=
  match classifyLine rawLine with
  | .skip => s
  | .cont line =>
    match s.current_loc with
    | none => s
    | some loc =>
      let equip := strTrim ⟨dropSuffixAll " (R)".data line.data⟩
      let isRear := strEndsWith line "(R)"
      if equip ≠ "" ∧ equip ≠ "-Empty-" ∧ ¬ isStructuralComponent equip then
        { s with loadout := addToFirst s.loadout ⟨equip, some loc, 1, isRear⟩ }
      else s
  | .header key => { s with current_loc := mtfLocationHeader key }
  | .kv key val => applyKV key val { s with current_loc := none }

/-- Second-pass (weapons block) state. -/
structure Pass2State where
  reading_weapons : Bool
  loadout : List ParsedLoadoutEntry
  deriving DecidableEq, Repr

/-- One step of the second (weapons) pass. -/
def pass2Step (st : Pass2State) (rawLine : String) : Pass2State :=
  let line := strTrim rawLine
  if strStartsWith line "#" ∨ line = "" then st
  else if strStartsWith (strToLower line) "weapons:" then
    { st with reading_weapons := true }
  else if st.reading_weapons then
    if strContainsChar line ':' ∧ ¬ strContainsChar line ',' then
      { st with reading_weapons := false }
    else if ¬ strContainsChar line ',' then
      { st with reading_weapons := false }
    else { st with loadout := parseWeaponLine line st.loadout }
  else st

/-- The fixed short-code ↦ canonical-name table of `build_mech_locations`. -/
def mtfLocTable : List (String × String) :=
  [("LA", "left_arm"), ("RA", "right_arm"), ("LT", "left_torso"),
   ("RT", "right_torso"), ("CT", "center_torso"), ("HD", "head"),
   ("LL", "left_leg"), ("RL", "right_leg")]

/-- `parse.rs::build_mech_locations`. -/
def buildMechLocations (armor : ArmorMap) : List ParsedLocation :=
  mtfLocTable.filterMap fun cl =>
    (armorGet armor cl.1).map fun fr => ⟨cl.2, fr.1, fr.2, none⟩

/-- `parse.rs::parse_mtf` on the list of input lines. -/
def parseMtf (lines : List String) : Option ParsedUnit :=
  let s1 := lines.foldl pass1Step initPass1
  let s2 := lines.foldl pass2Step ⟨false, s1.loadout⟩
  if s1.chassis = "" ∨ s1.tonnage = none then none
  else
    some
      { chassis := s1.chassis
        model := s1.model
        unit_type := .mech
        tech_base := s1.tech_base
        rules_level := s1.rules_level
        intro_year := s1.intro_year
        source := s1.source
        tonnage := s1.tonnage.getD 0
        locations := buildMechLocations s1.armor
        loadout := dedupLoadout s2.loadout
        quirks := s1.quirks
        description := s1.description
        mech_data := some
          { config := if s1.config = "" then "Biped" else s1.config
            is_omnimech := s1.is_omnimech
            engine_rating := s1.engine_rating
            engine_type := s1.engine_type
            walk_mp := s1.walk_mp
            jump_mp := s1.jump_mp
            heat_sink_count := s1.heat_sink_count
            heat_sink_type := s1.heat_sink_type
            structure_type := s1.structure_type
            armor_type := s1.armor_type
            gyro_type := s1.gyro_type
            cockpit_type := s1.cockpit_type
            myomer_type := s1.myomer_type } }

/-! ## The identity matcher (`mul/matcher.rs`) -/

/-- `matcher.rs::MatchResult`. -/
structure MatchResult where
  db_slug : String
  db_id : Int
  deriving DecidableEq, Repr

/-- `matcher.rs::UnmatchedUnit`. -/
structure UnmatchedUnit where
  mul_id : Nat
  mul_name : String
  computed_slug : String
  tonnage : Rat
  deriving DecidableEq, Repr

/-- `matcher.rs::Matcher`: the three lookup tables, modelled as partial
functions (`HashMap::get`). -/
structure Matcher where
  overrides : Nat → Option String
  units_by_slug : String → Option Int
  units_by_name : String → Option (String × Int)

/-- `matcher.rs::extract_clan_name`: the inner parenthetical name joined
with the suffix after the closing paren; `none` when either is empty. -/
def extract_clan_name (name : String) : Option String :=
  let t := (strTrim name).data
  match t.findIdx? (· = '(') with
  | none => none
  | some opn =>
    match (t.drop opn).findIdx? (· = ')') with
    | none => none
    | some rel =>
      let cls := opn + rel
      let inside := strTrim ⟨(t.drop (opn + 1)).take (cls - (opn + 1))⟩
      let after := strTrim ⟨t.drop (cls + 1)⟩
      if inside = "" ∨ after = "" then none
      else some (inside ++ " " ++ after)

/-- `matcher.rs::dual_name_alternatives`. -/
def dualNameAlternatives (name : String) : List String :=
  let t := (strTrim name).data
  match t.findIdx? (· = '(') with
  | none => []
  | some opn =>
    match (t.drop opn).findIdx? (· = ')') with
    | none => []
    | some rel =>
      let cls := opn + rel
      let before := strTrim ⟨t.take opn⟩
      let inside := strTrim ⟨(t.drop (opn + 1)).take (cls - (opn + 1))⟩
      let after := strTrim ⟨t.drop (cls + 1)⟩
      if before = "" ∨ inside = "" then []
      else
        (if after = "" then [before] else [before ++ " " ++ after]) ++
          (if after = "" then [inside] else [inside ++ " " ++ after])

/-- Index of the last occurrence of `c` (Rust `str::rfind(char)`). -/
def lastIdxOf (c : Char) (l : List Char) : Option Nat :=
  match (l.reverse.findIdx? (· = c)) with
  | none => none
  | some i => some (l.length - 1 - i)

/-- `matcher.rs::normalize_name`: strip a trailing parenthetical (from the
last `'('`) and collapse whitespace. -/
def normalize_name (name : String) : String :=
  let t := strTrim name
  let base :=
    match lastIdxOf '(' t.data with
    | some i => strTrim ⟨t.data.take i⟩
    | none => t
  String.intercalate " " ((splitWhitespaceL base.data).map fun w => (⟨w⟩ : String))

/-- `Matcher::match_unit`: the five-strategy cascade, first success wins. -/
def matchUnit (m : Matcher) (mulId : Nat) (mulName : String) (tonnage : Rat) :
    Except UnmatchedUnit MatchResult :=
  let tryOverride : Option MatchResult :=
    (m.overrides mulId).bind fun slug =>
      (m.units_by_slug slug).map fun dbId => ⟨slug, dbId⟩
  let slug := to_slug mulName
  let tryExact : Option MatchResult :=
    (m.units_by_slug slug).map fun dbId => ⟨slug, dbId⟩
  let tryDual : Option MatchResult :=
    (dualNameAlternatives mulName).findSome? fun alt =>
      let altSlug := to_slug alt
      (m.units_by_slug altSlug).map fun dbId => ⟨altSlug, dbId⟩
  let normalized := normalize_name mulName
  let normSlug := to_slug normalized
  let tryNorm : Option MatchResult :=
    if normSlug ≠ slug then
      (m.units_by_slug normSlug).map fun dbId => ⟨normSlug, dbId⟩
    else none
  let lowerName := strToLower mulName
  let tryName : Option MatchResult :=
    (m.units_by_name lowerName).map fun si => ⟨si.1, si.2⟩
  let lowerNorm := strToLower normalized
  let tryNameNorm : Option MatchResult :=
    if lowerNorm ≠ lowerName then
      (m.units_by_name lowerNorm).map fun si => ⟨si.1, si.2⟩
    else none
  let tryNameDual : Option MatchResult :=
    (dualNameAlternatives mulName).findSome? fun alt =>
      (m.units_by_name (strToLower alt)).map fun si => ⟨si.1, si.2⟩
  match tryOverride <|> tryExact <|> tryDual <|> tryNorm <|> tryName <|>
      tryNameNorm <|> tryNameDual with
  | some r => .ok r
  | none => .error ⟨mulId, mulName, slug, tonnage⟩

/-! ## Registry units and field reconciliation (`mul/quicklist.rs`,
`mul/import.rs`) -/

/-- `quicklist.rs::IdName`. -/
structure IdName where
  id : Option Int
  name : Option String
  deriving DecidableEq, Repr

/-- `quicklist.rs::MulUnit`: one externally sourced registry record. -/
structure MulUnit where
  id : Nat
  name : String
  «class» : Option String
  variant : Option String
  tonnage : Rat
  battle_value : Option Int
  cost : Option Int
  rules : Option String
  date_introduced : Option String
  technology : Option IdName
  role : Option IdName
  unit_type : Option IdName
  deriving DecidableEq, Repr

/-- `MulUnit::bv`: battle value, treating 0 (and any non-positive value)
as missing. -/
def MulUnit.bv (u : MulUnit) : Option Int :=
  u.battle_value.filter fun v => 0 < v

/-- `MulUnit::cost_value`: cost, treating 0 as missing. -/
def MulUnit.cost_value (u : MulUnit) : Option Int :=
  u.cost.filter fun v => 0 < v

/-- First index at which four consecutive ASCII digits start. -/
def firstFourDigitIdx (cs : List Char) : Option Nat :=
  match cs with
  | c0 :: c1 :: c2 :: c3 :: rest =>
    if c0.isDigit ∧ c1.isDigit ∧ c2.isDigit ∧ c3.isDigit then some 0
    else (firstFourDigitIdx (c1 :: c2 :: c3 :: rest)).map (· + 1)
  | _ => none

/-- `MulUnit::intro_year`: the first four-digit run in the introduction
date string, parsed as a year. -/
def MulUnit.intro_year (u : MulUnit) : Option Int :=
  u.date_introduced.bind fun d =>
    let cs := (strTrim d).data
    (firstFourDigitIdx cs).bind fun i => parseI32 ⟨(cs.drop i).take 4⟩

/-- `MulUnit::role_name`: the role name, trimmed. -/
def MulUnit.role_name (u : MulUnit) : Option String :=
  u.role.bind fun r => r.name.map strTrim

/-- The persisted `units` row columns touched by `update_mul_fields`
(`last_mul_import_at`, a wall-clock timestamp, is not modelled). -/
structure UnitRow where
  mul_id : Option Int
  bv : Option Int
  cost : Option Int
  intro_year : Option Int
  role : Option String
  bv_source : Option String
  intro_year_source : Option String
  clan_name : Option String
  deriving DecidableEq, Repr

/-- `import.rs::update_mul_fields`: the `UPDATE units SET … = COALESCE($n,
column) …` statement as a pure row transformer (`COALESCE(x, col)` keeps
`col` exactly when `x` is SQL NULL, i.e. `none`). -/
def updateMulFields (mulId : Int) (bv cost introYear : Option Int)
    (role clanName : Option String) (u : UnitRow) : UnitRow :=
  { u with
    mul_id := some mulId
    bv := bv.orElse fun _ => u.bv
    cost := cost.orElse fun _ => u.cost
    intro_year := introYear.orElse fun _ => u.intro_year
    role := role.orElse fun _ => u.role
    bv_source := if bv.isSome then some "mul" else u.bv_source
    intro_year_source := if introYear.isSome then some "mul" else u.intro_year_source
    clan_name := clanName.orElse fun _ => u.clan_name }

/-! ## The HTTP retry policy (`mul/client.rs::fetch_with_retry`)

The network is modelled as a function from attempt number to the response
that attempt receives; the embedding records the final result, the number
of requests sent and the seconds waited between attempts. -/

/-- The response one HTTP attempt receives: either a transport-level error
or a status code with an optional `Retry-After` header value (seconds) and
a body. -/
inductive HttpResp where
  | transportErr (msg : String)
  | http (code : Nat) (retryAfter : Option Nat) (body : String)
  deriving DecidableEq, Repr

/-- `client.rs::MAX_RETRIES`. -/
def MAX_RETRIES : Nat := 3

/-- The fixed 5xx backoff schedule `[2, 5, 15]`, indexed by attempt. -/
def backoffSecs : List Nat := [2, 5, 15]

/-- `reqwest::StatusCode::is_success` (2xx). -/
def isSuccessCode (code : Nat) : Bool := 200 ≤ code ∧ code < 300

/-- `reqwest::StatusCode::is_server_error` (5xx). -/
def isServerErrorCode (code : Nat) : Bool := 500 ≤ code ∧ code < 600

/-- `format!("request to {} failed after {} retries: HTTP {}", …)`. -/
def retriesExhaustedMsg (url : String) (code : Nat) : String :=
  "request to " ++ url ++ " failed after " ++ toString MAX_RETRIES ++
    " retries: HTTP " ++ toString code

/-- `format!("request to {} failed after {} retries: {}", …)` for
transport errors. -/
def retriesExhaustedErrMsg (url msg : String) : String :=
  "request to " ++ url ++ " failed after " ++ toString MAX_RETRIES ++
    " retries: " ++ msg

/-- `format!("request to {} failed: HTTP {}", …)` (non-retryable status). -/
def failedMsg (url : String) (code : Nat) : String :=
  "request to " ++ url ++ " failed: HTTP " ++ toString code

/-- Outcome of `fetch_with_retry`: the result, how many requests were
sent, and the seconds slept between attempts (in order). -/
structure FetchOutcome where
  result : Except String String
  requests : Nat
  waits : List Nat
  deriving Repr

/-- The retry loop of `fetch_with_retry`, one recursive step per attempt;
`remaining` counts the loop iterations still allowed (`MAX_RETRIES + 1 -
attempt`), so the recursion is structural. -/
def fetchAux (url : String) (responses : Nat → HttpResp) :
    Nat → Nat → List Nat → FetchOutcome
  | 0, attempt, waits =>
    -- corresponds to the `unreachable!()` after the Rust loop
    ⟨.error "unreachable", attempt, waits.reverse⟩
  | remaining + 1, attempt, waits =>
    match responses attempt with
    | .http code retryAfter body =>
      if isSuccessCode code then ⟨.ok body, attempt + 1, waits.reverse⟩
      else if attempt = MAX_RETRIES then
        ⟨.error (retriesExhaustedMsg url code), attempt + 1, waits.reverse⟩
      else if code = 429 then
        let wait := (retryAfter.map fun s => min s 60).getD 5
        fetchAux url responses remaining (attempt + 1) (wait :: waits)
      else if isServerErrorCode code then
        let wait := backoffSecs.getD attempt 0
        fetchAux url responses remaining (attempt + 1) (wait :: waits)
      else ⟨.error (failedMsg url code), attempt + 1, waits.reverse⟩
    | .transportErr msg =>
      if attempt = MAX_RETRIES then
        ⟨.error (retriesExhaustedErrMsg url msg), attempt + 1, waits.reverse⟩
      else
        fetchAux url responses remaining (attempt + 1) (backoffSecs.getD attempt 0 :: waits)

/-- `client.rs::fetch_with_retry`. -/
def fetchWithRetry (url : String) (responses : Nat → HttpResp) : FetchOutcome :=
  fetchAux url responses (MAX_RETRIES + 1) 0 []

/-! ## Auxiliary definitions used to state and prove the claims -/

/-- Emission-only form of the `to_slug` character loop: the characters the
loop appends from a given `prev_hyphen` state.  `slugAux` with a non-empty
accumulator appends exactly these characters (when the accumulator is
empty the flag is `true`, so no hyphen can be emitted first and the two
agree there too). -/
def slugAux2 : Bool → List Char → List Char
  | _, [] => []
  | prev, c :: cs =>
    if isAsciiAlphanumeric c then toAsciiLower c :: slugAux2 false cs
    else if ¬ prev then '-' :: slugAux2 true cs
    else slugAux2 prev cs

/-- A character a slug may contain: a hyphen, or a lowercase-stable
ASCII alphanumeric. -/
def slugChar (c : Char) : Bool :=
  c = '-' ∨ (isAsciiAlphanumeric c ∧ toAsciiLower c = c)

/-- No two adjacent hyphens. -/
def noDouble : List Char → Bool
  | [] => true
  | [_] => true
  | a :: b :: t => if a = '-' ∧ b = '-' then false else noDouble (b :: t)

/-- The key/value reading of a line, exactly as the first-pass loop
classifies it (used to state which line sets which field). -/
def keyValOf (rawLine : String) : Option (String × String) :=
  match classifyLine rawLine with
  | .kv k v => some (k, v)
  | _ => none

/-- The value of the last key/value line carrying `key` (assignment in the
first pass overwrites, so the last one wins). -/
def lastKeyVal (key : String) (lines : List String) : Option String :=
  lines.foldl
    (fun acc l =>
      match keyValOf l with
      | some kv => if kv.1 = key then some kv.2 else acc
      | none => acc)
    none

/-- The chassis value of a format-A input: the last non-empty `chassis:`
value, or `""` when there is none. -/
def chassisValue (lines : List String) : String :=
  (lastKeyVal "chassis" lines).getD ""

/-- The mass value of a format-A input: the numeric parse of the last
non-empty `mass:` value. -/
def massValue (lines : List String) : Option Rat :=
  (lastKeyVal "mass" lines).bind parseF64

/-- Whether a line is a key/value line with key `config`. -/
def isConfigLine (rawLine : String) : Bool :=
  match keyValOf rawLine with
  | some kv => kv.1 = "config"
  | none => false

/-- The armor-location code of a line, when the line is a key/value line
whose key ends in `" armor"` with a non-empty (uppercased) code before it
— exactly the lines the armor-suffix handling acts on. -/
def armorKVOf (rawLine : String) : Option (String × String) :=
  match keyValOf rawLine with
  | none => none
  | some kv =>
    match stripSuffixOpt " armor" kv.1 with
    | none => none
    | some rest =>
      let locCode := strToUpper (strTrim rest)
      if locCode = "" then none else some (locCode, kv.2)

/-- Just the armor-location code of a line. -/
def armorCodeOf (rawLine : String) : Option String :=
  (armorKVOf rawLine).map Prod.fst

/-- The rear-torso codes with the map key and canonical location they
redirect to. -/
def rearCodeTargets : List (String × String × String) :=
  [("RTL", "LT", "left_torso"), ("RTR", "RT", "right_torso"),
   ("RTC", "CT", "center_torso")]

/-- A minimal format-A input whose weapons block lists the same weapon
line `n` times. -/
def repeatedWeaponInput (n : Nat) : List String :=
  ["chassis:Test", "mass:50", "Weapons:1"] ++
    List.replicate n "Medium Laser, Left Arm"

/-- The first-pass state after the three header lines of
`repeatedWeaponInput` (chassis `Test`, mass 50, weapons sentinel). -/
def pass1Base : Pass1State :=
  ⟨"Test", "", "", false, none, none, none, none, none, none, none, none,
    none, none, none, .innerSphere, .standard, none, none, some 50, none,
    [], [], [], none⟩

/-- The unit `repeatedWeaponInput n` parses to: one loadout entry of
quantity `n`. -/
def c6ExpectedUnit (n : Nat) : ParsedUnit :=
  ⟨"Test", "", .mech, .innerSphere, .standard, none, none, 50, [],
    [⟨"Medium Laser", some "left_arm", (n : Int), false⟩], [], none,
    some ⟨"Biped", false, none, none, none, none, none, none, none, none,
      none, none, none⟩⟩

/-- The de-duplication key of a loadout entry. -/
def entryKey (e : ParsedLoadoutEntry) : String × Option String × Bool :=
  (e.equipment, e.location, e.is_rear)

/-- The de-duplication keys of a loadout, in order. -/
def loadoutKeys (l : List ParsedLoadoutEntry) : List (String × Option String × Bool) :=
  l.map entryKey

/-! # Theorems -/

/-! ## C5: manual override takes priority over exact slug match -/

/-- C5: for every registry unit with a manual-override entry whose slug
resolves to a persisted unit, `match_unit` returns that override's slug
and id — regardless of what the slug derived from the raw name would
resolve to, since the override strategy is tried first. -/
theorem c5_override_priority (m : Matcher) (mulId : Nat) (mulName : String)
    (tonnage : Rat) (slug : String) (dbId : Int)
    (hov : m.overrides mulId = some slug)
    (hres : m.units_by_slug slug = some dbId) :
    matchUnit m mulId mulName tonnage = .ok ⟨slug, dbId⟩ := by
  simp [matchUnit, hov, hres, Option.bind, Option.orElse]

/-- C5 witness: a concrete matcher where the raw name's own slug also
resolves (to a different unit), yet the override wins. -/
theorem c5_override_priority_witness :
    matchUnit
      ⟨fun n => if n = 142 then some "atlas-as7-d-dc" else none,
       fun s => if s = "atlas-as7-d-dc" then some 7 else if s = "atlas-as7-d" then some 9 else none,
       fun _ => none⟩
      142 "Atlas AS7-D" 100 = .ok ⟨"atlas-as7-d-dc", 7⟩ :=
  c5_override_priority _ 142 "Atlas AS7-D" 100 "atlas-as7-d-dc" 7 rfl rfl

/-! ## C3: registry field merge never overwrites with missing/placeholder
values -/

/-- C3: reconciliation is a COALESCE-style merge from the registry record
into the persisted row.  When the registry battle value is zero, negative
or absent, `MulUnit::bv` yields `none` and the persisted battle value is
unchanged; likewise for cost; intro year and role are written only when
present; and whenever a registry field is present (post-filter), exactly
that value is written. -/
theorem c3_registry_merge_coalesce (u : UnitRow) (reg : MulUnit) (mulId : Int)
    (role clanName : Option String) :
    let r := updateMulFields mulId reg.bv reg.cost_value reg.intro_year role clanName u
    (reg.bv = none → r.bv = u.bv) ∧
    ((∀ b, reg.battle_value = some b → b ≤ 0) → r.bv = u.bv) ∧
    (reg.cost_value = none → r.cost = u.cost) ∧
    ((∀ cve, reg.cost = some cve → cve ≤ 0) → r.cost = u.cost) ∧
    (reg.intro_year = none → r.intro_year = u.intro_year) ∧
    (role = none → r.role = u.role) ∧
    (∀ b, reg.bv = some b → r.bv = some b) ∧
    (∀ cv, reg.cost_value = some cv → r.cost = some cv) ∧
    (∀ y, reg.intro_year = some y → r.intro_year = some y) ∧
    (∀ ro, role = some ro → r.role = some ro) := by
  intro r
  have hbvz : (∀ b, reg.battle_value = some b → b ≤ 0) → reg.bv = none := by
    intro h
    cases hb : reg.battle_value with
    | none => simp [MulUnit.bv, hb]
    | some b =>
      have := h b hb
      simp [MulUnit.bv, hb]
      omega
  have hcz : (∀ cve, reg.cost = some cve → cve ≤ 0) → reg.cost_value = none := by
    intro h
    cases hc : reg.cost with
    | none => simp [MulUnit.cost_value, hc]
    | some cv =>
      have := h cv hc
      simp [MulUnit.cost_value, hc]
      omega
  refine ⟨?_, ?_, ?_, ?_, ?_, ?_, ?_, ?_, ?_, ?_⟩ <;>
    simp only [r, updateMulFields]
  · intro h; simp [h, Option.orElse]
  · intro h; simp [hbvz h, Option.orElse]
  · intro h; simp [h, Option.orElse]
  · intro h; simp [hcz h, Option.orElse]
  · intro h; simp [h, Option.orElse]
  · intro h; simp [h, Option.orElse]
  · intro b h; simp [h, Option.orElse]
  · intro cv h; simp [h, Option.orElse]
  · intro y h; simp [h, Option.orElse]
  · intro ro h; simp [h, Option.orElse]

/-- C3 witness: a persisted unit with battle value 1000 merged against a
registry record reporting battle value 0 (the "unknown" sentinel) keeps
battle value 1000. -/
theorem c3_registry_merge_coalesce_witness :
    (updateMulFields 5
        (MulUnit.bv ⟨5, "Atlas AS7-D", none, none, 100, some 0, some 0, none,
          none, none, none, none⟩)
        (MulUnit.cost_value ⟨5, "Atlas AS7-D", none, none, 100, some 0, some 0, none,
          none, none, none, none⟩)
        (MulUnit.intro_year ⟨5, "Atlas AS7-D", none, none, 100, some 0, some 0, none,
          none, none, none, none⟩)
        none none
        ⟨none, some 1000, some 9000000, some 3025, some "Juggernaut", none, none, none⟩).bv
      = some 1000 := by
  have h := c3_registry_merge_coalesce
    ⟨none, some 1000, some 9000000, some 3025, some "Juggernaut", none, none, none⟩
    ⟨5, "Atlas AS7-D", none, none, 100, some 0, some 0, none, none, none, none, none⟩
    5 none none
  exact h.2.1 (by intro b hb; cases hb; decide) ▸ rfl

/-! ## C4: retry policy — 503 exhaustion, 429 retry-after cap, immediate
failure otherwise -/

/-- The waits accumulator of `fetchAux` is a pure prefix: the recorded
waits are the already-accumulated ones (reversed) followed by whatever the
rest of the loop records. -/
theorem fetchAux_waits_acc (url : String) (responses : Nat → HttpResp) :
    ∀ (rem att : Nat) (waits : List Nat),
      (fetchAux url responses rem att waits).waits =
        waits.reverse ++ (fetchAux url responses rem att []).waits := by
  intro rem
  induction rem with
  | zero => intro att waits; simp [fetchAux]
  | succ n ih =>
    intro att waits
    simp only [fetchAux]
    cases hr : responses att with
    | http code retryAfter body =>
      by_cases hs : isSuccessCode code = true
      · simp only [if_pos hs]; simp
      · simp only [if_neg hs]
        by_cases hm : att = MAX_RETRIES
        · simp only [if_pos hm]; simp
        · simp only [if_neg hm]
          by_cases h429 : code = 429
          · simp only [if_pos h429]
            rw [ih (att + 1) ((retryAfter.map fun s => min s 60).getD 5 :: waits),
              ih (att + 1) [(retryAfter.map fun s => min s 60).getD 5]]
            simp
          · simp only [if_neg h429]
            by_cases h5 : isServerErrorCode code = true
            · simp only [if_pos h5]
              rw [ih (att + 1) (backoffSecs.getD att 0 :: waits),
                ih (att + 1) [backoffSecs.getD att 0]]
              simp
            · simp only [if_neg h5]; simp
    | transportErr msg =>
      by_cases hm : att = MAX_RETRIES
      · simp only [if_pos hm]; simp
      · simp only [if_neg hm]
        rw [ih (att + 1) (backoffSecs.getD att 0 :: waits),
          ih (att + 1) [backoffSecs.getD att 0]]
        simp

/-- C4: (1) when every attempt returns HTTP 503, the client sends the
initial request plus exactly `MAX_RETRIES` retries, waiting `[2, 5, 15]`
seconds (the fixed backoff schedule indexed by attempt number), and then
fails with a message naming the URL and the last status; (2) a
first-attempt HTTP 429 makes it wait `min retryAfter 60` seconds when a
`Retry-After` header is present, and 5 seconds when absent; (3) any other
non-success status on the first attempt fails at once: one request, no
waits, an error naming the URL and status. -/
theorem c4_retry_policy (url : String) :
    (∀ responses : Nat → HttpResp,
      (∀ i, i ≤ MAX_RETRIES → responses i = .http 503 none "") →
      fetchWithRetry url responses =
        ⟨.error (retriesExhaustedMsg url 503), MAX_RETRIES + 1, [2, 5, 15]⟩) ∧
    (∀ (responses : Nat → HttpResp) (ra : Nat) (body : String),
      responses 0 = .http 429 (some ra) body →
      (fetchWithRetry url responses).waits.head? = some (min ra 60)) ∧
    (∀ (responses : Nat → HttpResp) (body : String),
      responses 0 = .http 429 none body →
      (fetchWithRetry url responses).waits.head? = some 5) ∧
    (∀ (responses : Nat → HttpResp) (code : Nat) (hdr : Option Nat) (body : String),
      responses 0 = .http code hdr body →
      ¬ isSuccessCode code = true → code ≠ 429 → ¬ isServerErrorCode code = true →
      fetchWithRetry url responses = ⟨.error (failedMsg url code), 1, []⟩) := by
  refine ⟨?_, ?_, ?_, ?_⟩
  · intro responses h
    have h0 := h 0 (by decide)
    have h1 := h 1 (by decide)
    have h2 := h 2 (by decide)
    have h3 := h 3 (by decide)
    simp [fetchWithRetry, fetchAux, h0, h1, h2, h3, isSuccessCode,
      isServerErrorCode, MAX_RETRIES, backoffSecs]
  · intro responses ra body h0
    have hstep : fetchWithRetry url responses =
        fetchAux url responses MAX_RETRIES 1 [min ra 60] := by
      simp [fetchWithRetry, fetchAux, h0, isSuccessCode, isServerErrorCode,
        MAX_RETRIES]
    rw [hstep, fetchAux_waits_acc]
    simp
  · intro responses body h0
    have hstep : fetchWithRetry url responses =
        fetchAux url responses MAX_RETRIES 1 [5] := by
      simp [fetchWithRetry, fetchAux, h0, isSuccessCode, isServerErrorCode,
        MAX_RETRIES]
    rw [hstep, fetchAux_waits_acc]
    simp
  · intro responses code hdr body h0 hns h429 h5xx
    simp only [fetchWithRetry, fetchAux, h0, if_neg hns]
    have hm : (0 : Nat) ≠ MAX_RETRIES := by decide
    simp only [if_neg hm, if_neg h429, if_neg h5xx]
    simp

/-- C4 witness: concrete response streams for each conjunct. -/
theorem c4_retry_policy_witness :
    (fetchWithRetry "http://mul/q" (fun _ => .http 503 none "") =
      ⟨.error (retriesExhaustedMsg "http://mul/q" 503), 4, [2, 5, 15]⟩) ∧
    ((fetchWithRetry "http://mul/q"
        (fun i => if i = 0 then .http 429 (some 120) "" else .http 200 none "ok")).waits.head?
      = some 60) ∧
    ((fetchWithRetry "http://mul/q"
        (fun i => if i = 0 then .http 429 none "" else .http 200 none "ok")).waits.head?
      = some 5) ∧
    (fetchWithRetry "http://mul/q" (fun _ => .http 404 none "") =
      ⟨.error (failedMsg "http://mul/q" 404), 1, []⟩) := by
  have h := c4_retry_policy "http://mul/q"
  refine ⟨h.1 _ (by intro i _; rfl), ?_, ?_, ?_⟩
  · have := h.2.1 (fun i => if i = 0 then .http 429 (some 120) "" else .http 200 none "ok")
      120 "" (by rfl)
    simpa using this
  · exact h.2.2.1 (fun i => if i = 0 then .http 429 none "" else .http 200 none "ok")
      "" (by rfl)
  · exact h.2.2.2 (fun _ => .http 404 none "") 404 none "" rfl (by decide) (by decide)
      (by decide)

/-! ## C1: dual-name alternate extraction -/

/-- C1 counterexample: the claim says a name whose first parenthetical has
non-empty text inside but nothing after it yields NO alternates from the
matcher's dual-name strategy; but `dual_name_alternatives` only requires
non-empty text before and inside the parenthetical, so
`"Awesome AWS-8Q (Smith)"` yields `["Awesome AWS-8Q", "Smith"]`. -/
theorem c1_counterexample :
    dualNameAlternatives "Awesome AWS-8Q (Smith)" ≠ [] ∧
    dualNameAlternatives "Awesome AWS-8Q (Smith)" = ["Awesome AWS-8Q", "Smith"] := by
  constructor
  · decide
  · decide

/-- C1 amended: the matcher's `dual_name_alternatives` yields alternates
whenever the text before the parenthetical and the text inside it are both
non-empty.  With non-empty text after the closing paren it yields exactly
`["Outer Suffix", "Inner Suffix"]` (so `"Dasher (Fire Moth) A"` gives
`["Dasher A", "Fire Moth A"]`); with nothing after the paren it yields the
outer and inner names alone (so `"Awesome AWS-8Q (Smith)"` gives
`["Awesome AWS-8Q", "Smith"]`, not `[]`).  A name with no parenthetical
yields no alternates, and the result always has zero or exactly two
entries.  The empty-suffix exclusion the claim describes exists only in
`extract_clan_name`, which feeds the persisted clan-name field, not the
matching cascade. -/
theorem c1_amended_dual_names :
    dualNameAlternatives "Dasher (Fire Moth) A" = ["Dasher A", "Fire Moth A"] ∧
    dualNameAlternatives "Awesome AWS-8Q (Smith)" = ["Awesome AWS-8Q", "Smith"] ∧
    extract_clan_name "Awesome AWS-8Q (Smith)" = none ∧
    extract_clan_name "Dasher (Fire Moth) A" = some "Fire Moth A" ∧
    (∀ name : String, '(' ∉ (strTrim name).data →
      dualNameAlternatives name = []) ∧
    (∀ name : String, dualNameAlternatives name = [] ∨
      ∃ a b, dualNameAlternatives name = [a, b]) := by
  refine ⟨by decide, by decide, by decide, by decide, ?_, ?_⟩
  · intro name h
    have hfi : ((strTrim name).data.findIdx? (· = '(')) = none := by
      rw [List.findIdx?_eq_none_iff]
      intro x hx
      simp only [decide_eq_false_iff_not]
      intro hxe
      exact h (hxe ▸ hx)
    simp [dualNameAlternatives, hfi]
  · intro name
    simp only [dualNameAlternatives]
    cases hfi : ((strTrim name).data.findIdx? (· = '(')) with
    | none => simp
    | some opn =>
      dsimp only
      cases hrel : (((strTrim name).data.drop opn).findIdx? (· = ')')) with
      | none => simp
      | some rel =>
        dsimp only
        by_cases hb : strTrim ⟨(strTrim name).data.take opn⟩ = "" ∨
            strTrim ⟨((strTrim name).data.drop (opn + 1)).take (opn + rel - (opn + 1))⟩ = ""
        · left; rw [if_pos hb]
        · right
          rw [if_neg hb]
          by_cases ha : strTrim ⟨(strTrim name).data.drop (opn + rel + 1)⟩ = ""
          · exact ⟨_, _, by rw [if_pos ha, if_pos ha]; rfl⟩
          · exact ⟨_, _, by rw [if_neg ha, if_neg ha]; rfl⟩

/-! ## C8: quantity-prefix splitting of weapon-line equipment names -/

/-- Adding an entry with quantity 1 onto the singleton list holding the
same key increments its quantity. -/
theorem iterInsert_singleton (e : ParsedLoadoutEntry) (he : e.quantity = 1) :
    ∀ (n : Nat) (k : Int),
      iterInsert e n [{ e with quantity := k }] = [{ e with quantity := k + n }] := by
  intro n
  induction n with
  | zero => intro k; simp [iterInsert]
  | succ m ih =>
    intro k
    have hstep : addToFirst [{ e with quantity := k }] e =
        [{ e with quantity := k + 1 }] := by
      simp [addToFirst, he]
    rw [iterInsert, hstep, ih (k + 1)]
    cases e
    simp only [List.cons.injEq, ParsedLoadoutEntry.mk.injEq, and_true, true_and]
    push_cast
    ring

/-- Iterating the quantity-1 insert `n ≥ 1` times from an empty loadout
yields one entry with quantity `n`. -/
theorem iterInsert_nil (e : ParsedLoadoutEntry) (he : e.quantity = 1) (n : Nat)
    (hn : 1 ≤ n) : iterInsert e n [] = [{ e with quantity := (n : Int) }] := by
  obtain ⟨m, rfl⟩ : ∃ m, n = m + 1 := ⟨n - 1, by omega⟩
  have he2 : addToFirst [] e = [{ e with quantity := 1 }] := by
    cases e
    simp_all [addToFirst]
  rw [iterInsert, he2, iterInsert_singleton e he m 1]
  cases e
  simp only [List.cons.injEq, ParsedLoadoutEntry.mk.injEq, and_true, true_and]
  push_cast
  ring

/-- `"3058 Laser, Left Arm"` is parsed as 3058 units of `"Laser"` in the
left arm. -/
theorem weaponLine3058_eval :
    parseWeaponLine "3058 Laser, Left Arm" [] =
      [⟨"Laser", some "left_arm", 3058, false⟩] := by
  have hdec : weaponLineDecode "3058 Laser, Left Arm" =
      some (⟨"Laser", some "left_arm", 1, false⟩, 3058) := by decide
  rw [parseWeaponLine, hdec]
  exact iterInsert_nil _ rfl 3058 (by omega)

/-- C8 counterexample: the claim says `"3058 Laser"` is NOT parsed as 3058
units of `"Laser"`, but `"3058"` parses as an `i32`, so `parse_weapon_line`
does exactly that. -/
theorem c8_counterexample :
    parseWeaponLine "3058 Laser, Left Arm" [] =
      [⟨"Laser", some "left_arm", 3058, false⟩] ∧
    ∀ e ∈ parseWeaponLine "3058 Laser, Left Arm" [], e.equipment ≠ "3058 Laser" := by
  refine ⟨weaponLine3058_eval, ?_⟩
  rw [weaponLine3058_eval]
  intro e he
  simp only [List.mem_singleton] at he
  subst he
  decide

/-- C8 amended: the quantity split happens exactly when the first
space-separated token of the name part parses as an `i32` — when it does
not, the whole string is the equipment name; when it does (as for
`"3058"`), the token becomes the quantity, so `"3058 Laser, Left Arm"` IS
parsed as 3058 units of `"Laser"` (the source has no magnitude guard). -/
theorem c8_amended_qty_split :
    (∀ (s : String) (a b : List Char),
      splitFirstAt ' ' s.data = some (a, b) → parseI32 ⟨a⟩ = none →
      splitQty s = (1, s)) ∧
    (∀ (s : String) (a b : List Char) (n : Int),
      splitFirstAt ' ' s.data = some (a, b) → parseI32 ⟨a⟩ = some n →
      splitQty s = (n, strTrim ⟨b⟩)) ∧
    (∀ s : String, splitFirstAt ' ' s.data = none → splitQty s = (1, s)) ∧
    parseWeaponLine "3058 Laser, Left Arm" [] =
      [⟨"Laser", some "left_arm", 3058, false⟩] := by
  refine ⟨?_, ?_, ?_, weaponLine3058_eval⟩
  · intro s a b hsp hpi
    simp [splitQty, hsp, hpi]
  · intro s a b n hsp hpi
    simp [splitQty, hsp, hpi]
  · intro s hsp
    simp [splitQty, hsp]

/-- C8 witness: instantiating the amended characterization at concrete
inputs — `"Medium"` is not an integer so `"Medium Laser"` stays whole,
`"2"` is so `"2 LRM 20"` splits. -/
theorem c8_amended_qty_split_witness :
    splitQty "Medium Laser" = (1, "Medium Laser") ∧
    splitQty "2 LRM 20" = (2, "LRM 20") := by
  constructor
  · exact c8_amended_qty_split.1 "Medium Laser" "Medium".data " Laser".data.tail
      (by decide) (by decide)
  · exact c8_amended_qty_split.2.1 "2 LRM 20" "2".data "LRM 20".data 2
      (by decide) (by decide)

/-! ## C9: slug generation is deterministic and idempotent -/

/-- `Char.ofNat` at a valid scalar value round-trips through `toNat`. -/
theorem toNat_ofNat_valid (n : Nat) (h : n < 55296) : (Char.ofNat n).toNat = n := by
  have hv : n.isValidChar := Or.inl h
  rw [Char.ofNat, dif_pos hv]
  simp [Char.ofNatAux, Char.toNat, UInt32.toNat, BitVec.toNat_ofNatLt]

/-- ASCII-lowercasing keeps alphanumerics alphanumeric and is idempotent
on them. -/
theorem toAsciiLower_alnum (c : Char) (h : isAsciiAlphanumeric c = true) :
    isAsciiAlphanumeric (toAsciiLower c) = true ∧
      toAsciiLower (toAsciiLower c) = toAsciiLower c := by
  by_cases hu : 65 ≤ c.toNat ∧ c.toNat ≤ 90
  · have hlt : c.toNat + 32 < 55296 := by omega
    have htn : (Char.ofNat (c.toNat + 32)).toNat = c.toNat + 32 :=
      toNat_ofNat_valid _ hlt
    have h1 : toAsciiLower c = Char.ofNat (c.toNat + 32) := by
      simp [toAsciiLower, hu]
    rw [h1]
    constructor
    · simp only [isAsciiAlphanumeric, htn]
      simp only [decide_eq_true_eq]
      omega
    · simp only [toAsciiLower, htn]
      rw [if_neg]
      omega
  · have h1 : toAsciiLower c = c := by
      simp only [toAsciiLower, if_neg hu]
    rw [h1, h1]
    exact ⟨h, rfl⟩

/-- An ASCII alphanumeric is not a hyphen. -/
theorem alnum_ne_hyphen (c : Char) (h : isAsciiAlphanumeric c = true) :
    c ≠ '-' := by
  intro hc
  subst hc
  simp [isAsciiAlphanumeric] at h

/-- With a non-empty accumulator, the slug loop appends exactly the
emission-only characters. -/
theorem slugAux_eq_append (cs : List Char) :
    ∀ (acc : List Char) (prev : Bool), acc ≠ [] →
      slugAux acc prev cs = acc ++ slugAux2 prev cs := by
  induction cs with
  | nil => intro acc prev _; simp [slugAux, slugAux2]
  | cons c t ih =>
    intro acc prev hne
    by_cases ha : isAsciiAlphanumeric c = true
    · rw [slugAux, if_pos ha, slugAux2, if_pos ha,
        ih (acc ++ [toAsciiLower c]) false (by simp)]
      simp
    · rw [slugAux, if_neg ha, slugAux2, if_neg ha]
      by_cases hp : prev
      · rw [if_neg (by simp [hp]), if_neg (by simp [hp]), ih acc prev hne]
      · rw [if_pos (by simp [hp, hne]), if_pos (by simp [hp]),
          ih (acc ++ ['-']) true (by simp)]
        simp

/-- From the initial state the slug loop coincides with the emission-only
form. -/
theorem slugAux_nil_eq (cs : List Char) : slugAux [] true cs = slugAux2 true cs := by
  induction cs with
  | nil => rfl
  | cons c t ih =>
    by_cases ha : isAsciiAlphanumeric c = true
    · rw [slugAux, if_pos ha, slugAux2, if_pos ha]
      rw [show ([] : List Char) ++ [toAsciiLower c] = [toAsciiLower c] from rfl,
        slugAux_eq_append t [toAsciiLower c] false (by simp)]
      simp
    · rw [slugAux, if_neg ha, slugAux2, if_neg ha, if_neg (by simp),
        if_neg (by simp), ih]

/-- Every character the slug loop emits is a hyphen or a lowercase-stable
alphanumeric. -/
theorem slugAux2_chars (cs : List Char) :
    ∀ prev, ∀ c ∈ slugAux2 prev cs, slugChar c = true := by
  induction cs with
  | nil => intro prev c hc; simp [slugAux2] at hc
  | cons x t ih =>
    intro prev c hc
    by_cases ha : isAsciiAlphanumeric x = true
    · rw [slugAux2, if_pos ha] at hc
      rcases List.mem_cons.mp hc with h | h
      · subst h
        have := toAsciiLower_alnum x ha
        simp [slugChar, this.1, this.2]
      · exact ih false c h
    · rw [slugAux2, if_neg ha] at hc
      by_cases hp : prev
      · rw [if_neg (by simp [hp])] at hc
        exact ih prev c hc
      · rw [if_pos (by simp [hp])] at hc
        rcases List.mem_cons.mp hc with h | h
        · subst h; simp [slugChar]
        · exact ih true c h

/-- Prepending a character that cannot start a double hyphen preserves
`noDouble`. -/
theorem noDouble_cons (a : Char) (l : List Char)
    (h : a = '-' → l.head? ≠ some '-') (hl : noDouble l = true) :
    noDouble (a :: l) = true := by
  cases l with
  | nil => rfl
  | cons b t =>
    rw [noDouble, if_neg]
    · exact hl
    · intro hab
      exact (h hab.1) (by simp [hab.2])

/-- The slug loop never emits two adjacent hyphens, and from the
hyphen-blocking state it never emits a leading hyphen. -/
theorem slugAux2_structure (cs : List Char) :
    noDouble (slugAux2 true cs) = true ∧ noDouble (slugAux2 false cs) = true ∧
      (slugAux2 true cs).head? ≠ some '-' := by
  induction cs with
  | nil => refine ⟨rfl, rfl, by simp [slugAux2]⟩
  | cons x t ih =>
    by_cases ha : isAsciiAlphanumeric x = true
    · have hlx : isAsciiAlphanumeric (toAsciiLower x) = true :=
        (toAsciiLower_alnum x ha).1
      have hne : toAsciiLower x ≠ '-' := alnum_ne_hyphen _ hlx
      have hcons : noDouble (toAsciiLower x :: slugAux2 false t) = true :=
        noDouble_cons _ _ (fun hx => absurd hx hne) ih.2.1
      refine ⟨?_, ?_, ?_⟩
      · rw [slugAux2, if_pos ha]; exact hcons
      · rw [slugAux2, if_pos ha]; exact hcons
      · rw [slugAux2, if_pos ha]; simp [hne]
    · refine ⟨?_, ?_, ?_⟩
      · rw [slugAux2, if_neg ha, if_neg (by simp)]; exact ih.1
      · rw [slugAux2, if_neg ha, if_pos (by simp)]
        exact noDouble_cons _ _ (fun _ => ih.2.2) ih.1
      · rw [slugAux2, if_neg ha, if_neg (by simp)]; exact ih.2.2

/-- Dropping the first element preserves `noDouble`. -/
theorem noDouble_tail (a : Char) (l : List Char) (h : noDouble (a :: l) = true) :
    noDouble l = true := by
  cases l with
  | nil => rfl
  | cons b t =>
    rw [noDouble] at h
    by_cases hab : a = '-' ∧ b = '-'
    · rw [if_pos hab] at h; exact absurd h (by simp)
    · rwa [if_neg hab] at h

/-- `noDouble` restricts to a prefix. -/
theorem noDouble_append_left (l₂ : List Char) :
    ∀ (l₁ : List Char) (a : Char), noDouble (a :: (l₁ ++ l₂)) = true →
      noDouble (a :: l₁) = true := by
  intro l₁
  induction l₁ with
  | nil => intro a _; rfl
  | cons b t ih =>
    intro a h
    rw [List.cons_append] at h
    rw [noDouble] at h ⊢
    by_cases hab : a = '-' ∧ b = '-'
    · rw [if_pos hab] at h; exact absurd h (by simp)
    · rw [if_neg hab] at h ⊢
      exact ih b h

/-- On a list of slug characters with no adjacent hyphens, the slug loop
is the identity; from the hyphen-blocking state this needs the list not to
start with a hyphen. -/
theorem slugAux2_fixpoint : ∀ l : List Char,
    (∀ c ∈ l, slugChar c = true) → noDouble l = true →
    slugAux2 false l = l ∧ (l.head? ≠ some '-' → slugAux2 true l = l) := by
  intro l
  induction l with
  | nil => intro _ _; exact ⟨rfl, fun _ => rfl⟩
  | cons c t ih =>
    intro hc hd
    have hct : ∀ x ∈ t, slugChar x = true := fun x hx => hc x (List.mem_cons_of_mem _ hx)
    have hdt : noDouble t = true := noDouble_tail c t hd
    have iht := ih hct hdt
    by_cases hhy : c = '-'
    · subst hhy
      have hna : isAsciiAlphanumeric '-' = false := by decide
      have hth : t.head? ≠ some '-' := by
        cases t with
        | nil => simp
        | cons b t2 =>
          rw [noDouble] at hd
          by_cases hb : b = '-'
          · rw [if_pos ⟨rfl, hb⟩] at hd; exact absurd hd (by simp)
          · simp [hb]
      constructor
      · rw [slugAux2, if_neg (by simp [hna]), if_pos (by simp)]
        rw [iht.2 hth]
      · intro habs
        simp at habs
    · have halc : isAsciiAlphanumeric c = true ∧ toAsciiLower c = c := by
        have := hc c (List.mem_cons_self c t)
        rw [slugChar] at this
        simp only [Bool.decide_or, Bool.or_eq_true, decide_eq_true_eq,
          Bool.decide_and, Bool.and_eq_true] at this
        rcases this with h | h
        · exact absurd h hhy
        · exact h
      constructor
      · rw [slugAux2, if_pos halc.1, halc.2, iht.1]
      · intro _
        rw [slugAux2, if_pos halc.1, halc.2, iht.1]

/-- `dropTrailingHyphens` yields a prefix of its input. -/
theorem dropTrailingHyphens_prefix (l : List Char) : dropTrailingHyphens l <+: l := by
  rw [dropTrailingHyphens]
  have h1 : l.reverse.dropWhile (· = '-') <:+ l.reverse := List.dropWhile_suffix _
  have h2 := List.reverse_prefix.mpr h1
  rwa [List.reverse_reverse] at h2

/-- `dropWhile` is idempotent. -/
theorem dropWhile_idem (p : Char → Bool) : ∀ l : List Char,
    (l.dropWhile p).dropWhile p = l.dropWhile p := by
  intro l
  induction l with
  | nil => rfl
  | cons c t ih =>
    by_cases hp : p c = true
    · rw [List.dropWhile_cons, if_pos hp, ih]
    · rw [List.dropWhile_cons, if_neg hp, List.dropWhile_cons, if_neg hp]

/-- `dropTrailingHyphens` is idempotent. -/
theorem dropTrailingHyphens_idem (l : List Char) :
    dropTrailingHyphens (dropTrailingHyphens l) = dropTrailingHyphens l := by
  simp only [dropTrailingHyphens, List.reverse_reverse]
  rw [dropWhile_idem]

/-- A non-empty prefix has the same head. -/
theorem prefix_head (l₁ l₂ : List Char) (h : l₁ <+: l₂) (hne : l₁ ≠ []) :
    l₁.head? = l₂.head? := by
  obtain ⟨t, rfl⟩ := h
  cases l₁ with
  | nil => exact absurd rfl hne
  | cons a u => rfl

/-- C9: slug generation is deterministic (it is a pure function) and
idempotent — `to_slug (to_slug s) = to_slug s` for every string — and
`to_slug "Clan Wolf" = "clan-wolf"`. -/
theorem c9_slug_idempotent :
    (∀ s : String, to_slug (to_slug s) = to_slug s) ∧
      to_slug "Clan Wolf" = "clan-wolf" := by
  refine ⟨?_, by decide⟩
  intro s
  have hts : ∀ u : String, to_slug u = ⟨dropTrailingHyphens (slugAux2 true u.data)⟩ := by
    intro u
    rw [to_slug, slugAux_nil_eq]
  have hdata : (to_slug s).data = dropTrailingHyphens (slugAux2 true s.data) := by
    rw [hts s]
  set X := slugAux2 true s.data with hX
  set r := dropTrailingHyphens X with hr
  have hpre : r <+: X := dropTrailingHyphens_prefix X
  have hchars : ∀ c ∈ r, slugChar c = true := fun c hcr =>
    slugAux2_chars s.data true c (hpre.subset hcr)
  have hnd : noDouble r = true := by
    obtain ⟨t2, ht2⟩ := hpre
    cases hre : r with
    | nil => rfl
    | cons a u =>
      have hX2 : noDouble X = true := (slugAux2_structure s.data).1
      rw [← ht2, hre, List.cons_append] at hX2
      exact noDouble_append_left t2 u a hX2
  have hhead : r.head? ≠ some '-' := by
    by_cases hre : r = []
    · simp [hre]
    · rw [prefix_head r X hpre hre]
      exact (slugAux2_structure s.data).2.2
  have hfix : slugAux2 true r = r := (slugAux2_fixpoint r hchars hnd).2 hhead
  have hidem : dropTrailingHyphens r = r := by
    rw [hr]
    exact dropTrailingHyphens_idem X
  rw [hts (to_slug s), hdata, hfix, hidem, hts s, hr, hX]

/-! ## C6: loadout de-duplication and repeated weapon lines -/

/-- The find-or-insert key test coincides with `entryKey` equality. -/
theorem addToFirst_key_test (x e : ParsedLoadoutEntry) :
    (x.equipment = e.equipment ∧ x.location = e.location ∧ x.is_rear = e.is_rear)
      ↔ entryKey x = entryKey e := by
  simp [entryKey, Prod.ext_iff]

/-- `addToFirst` leaves the key list unchanged when the key is already
present, and appends it otherwise. -/
theorem addToFirst_keys (e : ParsedLoadoutEntry) : ∀ l : List ParsedLoadoutEntry,
    loadoutKeys (addToFirst l e) =
      if entryKey e ∈ loadoutKeys l then loadoutKeys l
      else loadoutKeys l ++ [entryKey e] := by
  intro l
  induction l with
  | nil => simp [addToFirst, loadoutKeys]
  | cons x xs ih =>
    by_cases hk : x.equipment = e.equipment ∧ x.location = e.location ∧
        x.is_rear = e.is_rear
    · have hke : entryKey x = entryKey e := (addToFirst_key_test x e).mp hk
      rw [addToFirst, if_pos hk]
      simp [loadoutKeys, entryKey, hke.symm, List.mem_cons]
      simp [entryKey] at hke
      simp [hke]
    · have hke : entryKey x ≠ entryKey e := fun h =>
        hk ((addToFirst_key_test x e).mpr h)
      rw [addToFirst, if_neg hk]
      simp only [loadoutKeys, List.map_cons] at ih ⊢
      rw [ih]
      by_cases hm : entryKey e ∈ List.map entryKey xs
      · rw [if_pos hm, if_pos (List.mem_cons_of_mem _ hm)]
      · rw [if_neg hm, if_neg ?_]
        · simp
        · simp only [List.mem_cons]
          push_neg
          exact ⟨fun h => hke h.symm, hm⟩

/-- When the key is fresh, `addToFirst` is a plain append. -/
theorem addToFirst_of_not_mem (e : ParsedLoadoutEntry) :
    ∀ l : List ParsedLoadoutEntry, entryKey e ∉ loadoutKeys l →
      addToFirst l e = l ++ [e] := by
  intro l
  induction l with
  | nil => intro _; rfl
  | cons x xs ih =>
    intro hm
    have hx : entryKey x ≠ entryKey e := by
      intro h
      exact hm (by simp [loadoutKeys, h.symm])
    have hk : ¬(x.equipment = e.equipment ∧ x.location = e.location ∧
        x.is_rear = e.is_rear) := fun h => hx ((addToFirst_key_test x e).mp h)
    rw [addToFirst, if_neg hk, ih (fun h => hm (by simp [loadoutKeys] at h ⊢; exact Or.inr h))]
    rfl

/-- Folding `addToFirst` keeps key lists duplicate-free. -/
theorem dedup_keys_nodup : ∀ (l : List ParsedLoadoutEntry)
    (acc : List ParsedLoadoutEntry), (loadoutKeys acc).Nodup →
    (loadoutKeys (l.foldl addToFirst acc)).Nodup := by
  intro l
  induction l with
  | nil => intro acc h; exact h
  | cons e t ih =>
    intro acc h
    rw [List.foldl_cons]
    refine ih (addToFirst acc e) ?_
    rw [addToFirst_keys]
    by_cases hm : entryKey e ∈ loadoutKeys acc
    · rwa [if_pos hm]
    · rw [if_neg hm]
      simp [List.nodup_append, h, hm]

/-- Folding `addToFirst` over entries whose keys (together with the
accumulator's) are duplicate-free is a plain append. -/
theorem dedup_of_nodup_keys : ∀ (l acc : List ParsedLoadoutEntry),
    (loadoutKeys (acc ++ l)).Nodup → l.foldl addToFirst acc = acc ++ l := by
  intro l
  induction l with
  | nil => intro acc _; simp
  | cons e t ih =>
    intro acc h
    have hmem : entryKey e ∉ loadoutKeys acc := by
      intro hm
      rw [loadoutKeys, List.map_append] at h
      have := (List.nodup_append.mp h).2.2
      exact this hm (by simp [loadoutKeys, entryKey])
    rw [List.foldl_cons, addToFirst_of_not_mem e acc hmem, ih (acc ++ [e]) (by simpa using h)]
    simp

/-- Loadout de-duplication is idempotent. -/
theorem dedupLoadout_idem (l : List ParsedLoadoutEntry) :
    dedupLoadout (dedupLoadout l) = dedupLoadout l := by
  have h := dedup_keys_nodup l [] (by simp [loadoutKeys])
  have h2 := dedup_of_nodup_keys (dedupLoadout l) [] (by simpa using h)
  simpa [dedupLoadout] using h2

/-- A weapon line (no colon) is ignored by the first pass when no location
section is open. -/
theorem pass1_weapon_line_skip (s : Pass1State) (h : s.current_loc = none) :
    pass1Step s "Medium Laser, Left Arm" = s := by
  rw [pass1Step,
    show classifyLine "Medium Laser, Left Arm" =
      LineClass.cont "Medium Laser, Left Arm" from by decide,
    h]

/-- Replicated weapon lines are ignored wholesale by the first pass. -/
theorem pass1_replicate (n : Nat) (s : Pass1State) (h : s.current_loc = none) :
    List.foldl pass1Step s (List.replicate n "Medium Laser, Left Arm") = s := by
  induction n with
  | zero => rfl
  | succ m ih =>
    rw [List.replicate_succ, List.foldl_cons, pass1_weapon_line_skip s h, ih]

/-- In reading mode, one weapon line performs one find-or-insert of the
quantity-1 medium-laser entry. -/
theorem pass2_weapon_line_step (L : List ParsedLoadoutEntry) :
    pass2Step ⟨true, L⟩ "Medium Laser, Left Arm" =
      ⟨true, addToFirst L ⟨"Medium Laser", some "left_arm", 1, false⟩⟩ := by
  have h1 : pass2Step ⟨true, L⟩ "Medium Laser, Left Arm" =
      ⟨true, parseWeaponLine "Medium Laser, Left Arm" L⟩ := rfl
  rw [h1, parseWeaponLine,
    show weaponLineDecode "Medium Laser, Left Arm" =
      some (⟨"Medium Laser", some "left_arm", 1, false⟩, 1) from by decide]
  rfl

/-- Replicated weapon lines in reading mode iterate the find-or-insert. -/
theorem pass2_replicate (n : Nat) :
    ∀ L : List ParsedLoadoutEntry,
      List.foldl pass2Step ⟨true, L⟩ (List.replicate n "Medium Laser, Left Arm") =
        ⟨true, iterInsert ⟨"Medium Laser", some "left_arm", 1, false⟩ n L⟩ := by
  induction n with
  | zero => intro L; rfl
  | succ m ih =>
    intro L
    rw [List.replicate_succ, List.foldl_cons, pass2_weapon_line_step L, ih, iterInsert]

/-- C6: parsing a unit whose weapon block lists the same (equipment,
location, rear-facing) triple `n ≥ 1` times yields exactly one
`LoadoutEntry` for that triple with quantity `n`, and loadout
de-duplication is idempotent on every entry list. -/
theorem c6_dedup_idempotent :
    (∀ n : Nat, 1 ≤ n →
      parseMtf (repeatedWeaponInput n) = some (c6ExpectedUnit n) ∧
      (c6ExpectedUnit n).loadout =
        [⟨"Medium Laser", some "left_arm", (n : Int), false⟩]) ∧
    (∀ l : List ParsedLoadoutEntry, dedupLoadout (dedupLoadout l) = dedupLoadout l) := by
  refine ⟨?_, dedupLoadout_idem⟩
  intro n hn
  refine ⟨?_, rfl⟩
  have hlines : repeatedWeaponInput n =
      ["chassis:Test", "mass:50", "Weapons:1"] ++
        List.replicate n "Medium Laser, Left Arm" := rfl
  have h1 : (repeatedWeaponInput n).foldl pass1Step initPass1 = pass1Base := by
    rw [hlines, List.foldl_append,
      show List.foldl pass1Step initPass1 ["chassis:Test", "mass:50", "Weapons:1"] =
        pass1Base from by decide]
    exact pass1_replicate n pass1Base (by decide)
  have h2 : (repeatedWeaponInput n).foldl pass2Step ⟨false, pass1Base.loadout⟩ =
      ⟨true, iterInsert ⟨"Medium Laser", some "left_arm", 1, false⟩ n []⟩ := by
    rw [hlines, List.foldl_append,
      show List.foldl pass2Step ⟨false, pass1Base.loadout⟩
        ["chassis:Test", "mass:50", "Weapons:1"] = (⟨true, []⟩ : Pass2State) from by decide]
    exact pass2_replicate n []
  simp only [parseMtf]
  rw [h1, h2, if_neg (by decide)]
  rw [show (⟨true, iterInsert ⟨"Medium Laser", some "left_arm", 1, false⟩ n []⟩ :
      Pass2State).loadout =
    iterInsert ⟨"Medium Laser", some "left_arm", 1, false⟩ n [] from rfl]
  rw [iterInsert_nil _ rfl n hn]
  simp [dedupLoadout, addToFirst, c6ExpectedUnit, pass1Base]
  decide

/-- C6 witness: the concrete three-fold repetition collapses to one entry
of quantity 3, and de-duplication is a no-op on its own output. -/
theorem c6_dedup_idempotent_witness :
    parseMtf (repeatedWeaponInput 3) = some (c6ExpectedUnit 3) ∧
    dedupLoadout (dedupLoadout [⟨"Medium Laser", some "left_arm", 3, false⟩,
      ⟨"LRM 20", some "left_torso", 1, true⟩]) =
      dedupLoadout [⟨"Medium Laser", some "left_arm", 3, false⟩,
        ⟨"LRM 20", some "left_torso", 1, true⟩] :=
  ⟨(c6_dedup_idempotent.1 3 (by omega)).1, c6_dedup_idempotent.2 _⟩

/-! ## Field characterizations of the first pass (used by C2, C7, C10) -/

/-- The `engine` arm touches only the engine fields. -/
theorem applyEngine_preserve (v : String) (s : Pass1State) :
    (applyEngine v s).chassis = s.chassis ∧ (applyEngine v s).tonnage = s.tonnage ∧
    (applyEngine v s).config = s.config ∧ (applyEngine v s).armor = s.armor := by
  rw [applyEngine]
  split
  · split <;> exact ⟨rfl, rfl, rfl, rfl⟩
  · exact ⟨rfl, rfl, rfl, rfl⟩

/-- The `heat sinks` arm touches only the heat-sink fields. -/
theorem applyHeatSinks_preserve (v : String) (s : Pass1State) :
    (applyHeatSinks v s).chassis = s.chassis ∧ (applyHeatSinks v s).tonnage = s.tonnage ∧
    (applyHeatSinks v s).config = s.config ∧ (applyHeatSinks v s).armor = s.armor := by
  rw [applyHeatSinks]
  split
  · split <;> exact ⟨rfl, rfl, rfl, rfl⟩
  · split <;> exact ⟨rfl, rfl, rfl, rfl⟩

/-- Only the literal key `chassis` classifies as the chassis arm. -/
theorem keyKind_chassis_iff (k : String) :
    keyKind k = KeyKind.chassisK ↔ k = "chassis" := by
  constructor
  · intro h
    unfold keyKind at h
    by_cases h1 : k = "chassis"
    · exact h1
    · rw [if_neg h1] at h
      by_cases h2 : k = "model"
      · rw [if_pos h2] at h
        exact absurd h (by decide)
      · rw [if_neg h2] at h
        by_cases h3 : k = "config"
        · rw [if_pos h3] at h
          exact absurd h (by decide)
        · rw [if_neg h3] at h
          by_cases h4 : k = "techbase" ∨ k = "tech base"
          · rw [if_pos h4] at h
            exact absurd h (by decide)
          · rw [if_neg h4] at h
            by_cases h5 : k = "era"
            · rw [if_pos h5] at h
              exact absurd h (by decide)
            · rw [if_neg h5] at h
              by_cases h6 : k = "source"
              · rw [if_pos h6] at h
                exact absurd h (by decide)
              · rw [if_neg h6] at h
                by_cases h7 : k = "rules level"
                · rw [if_pos h7] at h
                  exact absurd h (by decide)
                · rw [if_neg h7] at h
                  by_cases h8 : k = "mass"
                  · rw [if_pos h8] at h
                    exact absurd h (by decide)
                  · rw [if_neg h8] at h
                    by_cases h9 : k = "engine"
                    · rw [if_pos h9] at h
                      exact absurd h (by decide)
                    · rw [if_neg h9] at h
                      by_cases h10 : k = "walk mp"
                      · rw [if_pos h10] at h
                        exact absurd h (by decide)
                      · rw [if_neg h10] at h
                        by_cases h11 : k = "jump mp"
                        · rw [if_pos h11] at h
                          exact absurd h (by decide)
                        · rw [if_neg h11] at h
                          by_cases h12 : k = "heat sinks"
                          · rw [if_pos h12] at h
                            exact absurd h (by decide)
                          · rw [if_neg h12] at h
                            by_cases h13 : k = "structure"
                            · rw [if_pos h13] at h
                              exact absurd h (by decide)
                            · rw [if_neg h13] at h
                              by_cases h14 : k = "armor"
                              · rw [if_pos h14] at h
                                exact absurd h (by decide)
                              · rw [if_neg h14] at h
                                by_cases h15 : k = "gyro"
                                · rw [if_pos h15] at h
                                  exact absurd h (by decide)
                                · rw [if_neg h15] at h
                                  by_cases h16 : k = "cockpit"
                                  · rw [if_pos h16] at h
                                    exact absurd h (by decide)
                                  · rw [if_neg h16] at h
                                    by_cases h17 : k = "myomer"
                                    · rw [if_pos h17] at h
                                      exact absurd h (by decide)
                                    · rw [if_neg h17] at h
                                      by_cases h18 : k = "quirk"
                                      · rw [if_pos h18] at h
                                        exact absurd h (by decide)
                                      · rw [if_neg h18] at h
                                        by_cases h19 : k = "overview"
                                        · rw [if_pos h19] at h
                                          exact absurd h (by decide)
                                        · rw [if_neg h19] at h
                                          exact absurd h (by decide)
  · intro h
    subst h
    rfl

/-- Only the literal key `mass` classifies as the mass arm. -/
theorem keyKind_mass_iff (k : String) :
    keyKind k = KeyKind.massK ↔ k = "mass" := by
  constructor
  · intro h
    unfold keyKind at h
    by_cases h1 : k = "chassis"
    · rw [if_pos h1] at h
      exact absurd h (by decide)
    · rw [if_neg h1] at h
      by_cases h2 : k = "model"
      · rw [if_pos h2] at h
        exact absurd h (by decide)
      · rw [if_neg h2] at h
        by_cases h3 : k = "config"
        · rw [if_pos h3] at h
          exact absurd h (by decide)
        · rw [if_neg h3] at h
          by_cases h4 : k = "techbase" ∨ k = "tech base"
          · rw [if_pos h4] at h
            exact absurd h (by decide)
          · rw [if_neg h4] at h
            by_cases h5 : k = "era"
            · rw [if_pos h5] at h
              exact absurd h (by decide)
            · rw [if_neg h5] at h
              by_cases h6 : k = "source"
              · rw [if_pos h6] at h
                exact absurd h (by decide)
              · rw [if_neg h6] at h
                by_cases h7 : k = "rules level"
                · rw [if_pos h7] at h
                  exact absurd h (by decide)
                · rw [if_neg h7] at h
                  by_cases h8 : k = "mass"
                  · exact h8
                  · rw [if_neg h8] at h
                    by_cases h9 : k = "engine"
                    · rw [if_pos h9] at h
                      exact absurd h (by decide)
                    · rw [if_neg h9] at h
                      by_cases h10 : k = "walk mp"
                      · rw [if_pos h10] at h
                        exact absurd h (by decide)
                      · rw [if_neg h10] at h
                        by_cases h11 : k = "jump mp"
                        · rw [if_pos h11] at h
                          exact absurd h (by decide)
                        · rw [if_neg h11] at h
                          by_cases h12 : k = "heat sinks"
                          · rw [if_pos h12] at h
                            exact absurd h (by decide)
                          · rw [if_neg h12] at h
                            by_cases h13 : k = "structure"
                            · rw [if_pos h13] at h
                              exact absurd h (by decide)
                            · rw [if_neg h13] at h
                              by_cases h14 : k = "armor"
                              · rw [if_pos h14] at h
                                exact absurd h (by decide)
                              · rw [if_neg h14] at h
                                by_cases h15 : k = "gyro"
                                · rw [if_pos h15] at h
                                  exact absurd h (by decide)
                                · rw [if_neg h15] at h
                                  by_cases h16 : k = "cockpit"
                                  · rw [if_pos h16] at h
                                    exact absurd h (by decide)
                                  · rw [if_neg h16] at h
                                    by_cases h17 : k = "myomer"
                                    · rw [if_pos h17] at h
                                      exact absurd h (by decide)
                                    · rw [if_neg h17] at h
                                      by_cases h18 : k = "quirk"
                                      · rw [if_pos h18] at h
                                        exact absurd h (by decide)
                                      · rw [if_neg h18] at h
                                        by_cases h19 : k = "overview"
                                        · rw [if_pos h19] at h
                                          exact absurd h (by decide)
                                        · rw [if_neg h19] at h
                                          exact absurd h (by decide)
  · intro h
    subst h
    rfl

/-- Only the literal key `config` classifies as the config arm. -/
theorem keyKind_config_iff (k : String) :
    keyKind k = KeyKind.configK ↔ k = "config" := by
  constructor
  · intro h
    unfold keyKind at h
    by_cases h1 : k = "chassis"
    · rw [if_pos h1] at h
      exact absurd h (by decide)
    · rw [if_neg h1] at h
      by_cases h2 : k = "model"
      · rw [if_pos h2] at h
        exact absurd h (by decide)
      · rw [if_neg h2] at h
        by_cases h3 : k = "config"
        · exact h3
        · rw [if_neg h3] at h
          by_cases h4 : k = "techbase" ∨ k = "tech base"
          · rw [if_pos h4] at h
            exact absurd h (by decide)
          · rw [if_neg h4] at h
            by_cases h5 : k = "era"
            · rw [if_pos h5] at h
              exact absurd h (by decide)
            · rw [if_neg h5] at h
              by_cases h6 : k = "source"
              · rw [if_pos h6] at h
                exact absurd h (by decide)
              · rw [if_neg h6] at h
                by_cases h7 : k = "rules level"
                · rw [if_pos h7] at h
                  exact absurd h (by decide)
                · rw [if_neg h7] at h
                  by_cases h8 : k = "mass"
                  · rw [if_pos h8] at h
                    exact absurd h (by decide)
                  · rw [if_neg h8] at h
                    by_cases h9 : k = "engine"
                    · rw [if_pos h9] at h
                      exact absurd h (by decide)
                    · rw [if_neg h9] at h
                      by_cases h10 : k = "walk mp"
                      · rw [if_pos h10] at h
                        exact absurd h (by decide)
                      · rw [if_neg h10] at h
                        by_cases h11 : k = "jump mp"
                        · rw [if_pos h11] at h
                          exact absurd h (by decide)
                        · rw [if_neg h11] at h
                          by_cases h12 : k = "heat sinks"
                          · rw [if_pos h12] at h
                            exact absurd h (by decide)
                          · rw [if_neg h12] at h
                            by_cases h13 : k = "structure"
                            · rw [if_pos h13] at h
                              exact absurd h (by decide)
                            · rw [if_neg h13] at h
                              by_cases h14 : k = "armor"
                              · rw [if_pos h14] at h
                                exact absurd h (by decide)
                              · rw [if_neg h14] at h
                                by_cases h15 : k = "gyro"
                                · rw [if_pos h15] at h
                                  exact absurd h (by decide)
                                · rw [if_neg h15] at h
                                  by_cases h16 : k = "cockpit"
                                  · rw [if_pos h16] at h
                                    exact absurd h (by decide)
                                  · rw [if_neg h16] at h
                                    by_cases h17 : k = "myomer"
                                    · rw [if_pos h17] at h
                                      exact absurd h (by decide)
                                    · rw [if_neg h17] at h
                                      by_cases h18 : k = "quirk"
                                      · rw [if_pos h18] at h
                                        exact absurd h (by decide)
                                      · rw [if_neg h18] at h
                                        by_cases h19 : k = "overview"
                                        · rw [if_pos h19] at h
                                          exact absurd h (by decide)
                                        · rw [if_neg h19] at h
                                          exact absurd h (by decide)
  · intro h
    subst h
    rfl

/-- Which key/value lines set the chassis through the match arms. -/
theorem applyKVmatch_chassis (k v : String) (s : Pass1State) :
    (applyKVmatch k v s).chassis = if k = "chassis" then v else s.chassis := by
  by_cases h : k = "chassis"
  · subst h
    rw [if_pos rfl]
    rfl
  · rw [if_neg h]
    unfold applyKVmatch
    cases hk : keyKind k <;>
      first
        | exact absurd ((keyKind_chassis_iff k).mp hk) h
        | rfl
        | exact (applyEngine_preserve v s).1
        | exact (applyHeatSinks_preserve v s).1

/-- Which key/value lines set the tonnage through the match arms. -/
theorem applyKVmatch_tonnage (k v : String) (s : Pass1State) :
    (applyKVmatch k v s).tonnage = if k = "mass" then parseF64 v else s.tonnage := by
  by_cases h : k = "mass"
  · subst h
    rw [if_pos rfl]
    rfl
  · rw [if_neg h]
    unfold applyKVmatch
    cases hk : keyKind k <;>
      first
        | exact absurd ((keyKind_mass_iff k).mp hk) h
        | rfl
        | exact (applyEngine_preserve v s).2.1
        | exact (applyHeatSinks_preserve v s).2.1

/-- Which key/value lines set the config through the match arms. -/
theorem applyKVmatch_config (k v : String) (s : Pass1State) :
    (applyKVmatch k v s).config = if k = "config" then firstWordOr v else s.config := by
  by_cases h : k = "config"
  · subst h
    rw [if_pos rfl]
    rfl
  · rw [if_neg h]
    unfold applyKVmatch
    cases hk : keyKind k <;>
      first
        | exact absurd ((keyKind_config_iff k).mp hk) h
        | rfl
        | exact (applyEngine_preserve v s).2.2.1
        | exact (applyHeatSinks_preserve v s).2.2.1

/-- The match arms never touch the armor accumulator. -/
theorem applyKVmatch_armor (k v : String) (s : Pass1State) :
    (applyKVmatch k v s).armor = s.armor := by
  unfold applyKVmatch
  cases hk : keyKind k <;>
    first
      | rfl
      | exact (applyEngine_preserve v s).2.2.2
      | exact (applyHeatSinks_preserve v s).2.2.2

/-- Which key/value lines set the chassis. -/
theorem applyKV_chassis (k v : String) (s : Pass1State) :
    (applyKV k v s).chassis = if k = "chassis" then v else s.chassis := by
  show (applyKVmatch k v s).chassis = _
  exact applyKVmatch_chassis k v s

/-- Which key/value lines set the tonnage. -/
theorem applyKV_tonnage (k v : String) (s : Pass1State) :
    (applyKV k v s).tonnage = if k = "mass" then parseF64 v else s.tonnage := by
  show (applyKVmatch k v s).tonnage = _
  exact applyKVmatch_tonnage k v s

/-- Which key/value lines set the config. -/
theorem applyKV_config (k v : String) (s : Pass1State) :
    (applyKV k v s).config = if k = "config" then firstWordOr v else s.config := by
  show (applyKVmatch k v s).config = _
  exact applyKVmatch_config k v s

/-- Key/value lines transform the armor accumulator through
`armorLineApply` and nothing else does. -/
theorem applyKV_armor (k v : String) (s : Pass1State) :
    (applyKV k v s).armor = armorLineApply k v s.armor := by
  show armorLineApply k v (applyKVmatch k v s).armor = _
  rw [applyKVmatch_armor]

/-- The chassis after one first-pass step. -/
theorem pass1Step_chassis (s : Pass1State) (raw : String) :
    (pass1Step s raw).chassis =
      (match keyValOf raw with
       | some kv => if kv.1 = "chassis" then kv.2 else s.chassis
       | none => s.chassis) := by
  unfold pass1Step keyValOf
  cases hcl : classifyLine raw
  case skip => rfl
  case header key => rfl
  case kv key val => exact applyKV_chassis key val _
  case cont line =>
    cases hloc : s.current_loc
    · rfl
    · dsimp only
      split <;> rfl

/-- The tonnage after one first-pass step. -/
theorem pass1Step_tonnage (s : Pass1State) (raw : String) :
    (pass1Step s raw).tonnage =
      (match keyValOf raw with
       | some kv => if kv.1 = "mass" then parseF64 kv.2 else s.tonnage
       | none => s.tonnage) := by
  unfold pass1Step keyValOf
  cases hcl : classifyLine raw
  case skip => rfl
  case header key => rfl
  case kv key val => exact applyKV_tonnage key val _
  case cont line =>
    cases hloc : s.current_loc
    · rfl
    · dsimp only
      split <;> rfl

/-- The config after one first-pass step. -/
theorem pass1Step_config (s : Pass1State) (raw : String) :
    (pass1Step s raw).config =
      (match keyValOf raw with
       | some kv => if kv.1 = "config" then firstWordOr kv.2 else s.config
       | none => s.config) := by
  unfold pass1Step keyValOf
  cases hcl : classifyLine raw
  case skip => rfl
  case header key => rfl
  case kv key val => exact applyKV_config key val _
  case cont line =>
    cases hloc : s.current_loc
    · rfl
    · dsimp only
      split <;> rfl

/-- The armor accumulator after one first-pass step. -/
theorem pass1Step_armor (s : Pass1State) (raw : String) :
    (pass1Step s raw).armor =
      (match keyValOf raw with
       | some kv => armorLineApply kv.1 kv.2 s.armor
       | none => s.armor) := by
  unfold pass1Step keyValOf
  cases hcl : classifyLine raw
  case skip => rfl
  case header key => rfl
  case kv key val => exact applyKV_armor key val _
  case cont line =>
    cases hloc : s.current_loc
    · rfl
    · dsimp only
      split <;> rfl

/-- The option-accumulator fold of `lastKeyVal` agrees with the direct
string fold (chassis instance). -/
theorem chassis_opt_fold (lines : List String) : ∀ (o : Option String) (a : String),
    (List.foldl
        (fun acc l =>
          match keyValOf l with
          | some kv => if kv.1 = "chassis" then some kv.2 else acc
          | none => acc) o lines).getD a =
      List.foldl
        (fun acc l =>
          match keyValOf l with
          | some kv => if kv.1 = "chassis" then kv.2 else acc
          | none => acc) (o.getD a) lines := by
  induction lines with
  | nil => intro o a; rfl
  | cons l t ih =>
    intro o a
    rw [List.foldl_cons, List.foldl_cons, ih]
    congr 1
    cases hkv : keyValOf l with
    | none => rfl
    | some kv =>
      dsimp only
      split_ifs <;> rfl

/-- The first pass accumulates the chassis as the direct string fold. -/
theorem pass1_chassis_fold (lines : List String) : ∀ s : Pass1State,
    (lines.foldl pass1Step s).chassis =
      List.foldl
        (fun acc l =>
          match keyValOf l with
          | some kv => if kv.1 = "chassis" then kv.2 else acc
          | none => acc) s.chassis lines := by
  induction lines with
  | nil => intro s; rfl
  | cons l t ih =>
    intro s
    rw [List.foldl_cons, List.foldl_cons, ih (pass1Step s l), pass1Step_chassis]

/-- The chassis of the completed first pass is the last `chassis:` value. -/
theorem pass1_chassis (lines : List String) (s : Pass1State) :
    (lines.foldl pass1Step s).chassis = (lastKeyVal "chassis" lines).getD s.chassis := by
  rw [pass1_chassis_fold, lastKeyVal, chassis_opt_fold]
  rfl

/-- The option-accumulator fold of `lastKeyVal` agrees with the direct
fold through `parseF64` (mass instance). -/
theorem mass_opt_fold (lines : List String) : ∀ (o : Option String) (a : Option Rat),
    (match
        List.foldl
          (fun acc l =>
            match keyValOf l with
            | some kv => if kv.1 = "mass" then some kv.2 else acc
            | none => acc) o lines with
      | some v => parseF64 v
      | none => a) =
      List.foldl
        (fun acc l =>
          match keyValOf l with
          | some kv => if kv.1 = "mass" then parseF64 kv.2 else acc
          | none => acc)
        (match o with | some v => parseF64 v | none => a) lines := by
  induction lines with
  | nil => intro o a; rfl
  | cons l t ih =>
    intro o a
    rw [List.foldl_cons, List.foldl_cons, ih]
    congr 1
    cases hkv : keyValOf l with
    | none => rfl
    | some kv =>
      dsimp only
      split_ifs <;> rfl

/-- The first pass accumulates the tonnage as the direct fold. -/
theorem pass1_tonnage_fold (lines : List String) : ∀ s : Pass1State,
    (lines.foldl pass1Step s).tonnage =
      List.foldl
        (fun acc l =>
          match keyValOf l with
          | some kv => if kv.1 = "mass" then parseF64 kv.2 else acc
          | none => acc) s.tonnage lines := by
  induction lines with
  | nil => intro s; rfl
  | cons l t ih =>
    intro s
    rw [List.foldl_cons, List.foldl_cons, ih (pass1Step s l), pass1Step_tonnage]

/-- The tonnage of the completed first pass is the numeric parse of the
last `mass:` value. -/
theorem pass1_tonnage (lines : List String) (s : Pass1State) :
    (lines.foldl pass1Step s).tonnage =
      (match lastKeyVal "mass" lines with
       | some v => parseF64 v
       | none => s.tonnage) := by
  rw [pass1_tonnage_fold, lastKeyVal, mass_opt_fold]

/-! ## C2: mandatory chassis and mass -/

/-- C2: `parse_mtf` returns no result exactly when the input lacks a
non-empty chassis value or a numeric mass value; on success the returned
unit's chassis and tonnage equal the source's chassis and mass values
exactly — never a zero-valued default in place of a failure. -/
theorem c2_parse_mandatory_fields (lines : List String) :
    (parseMtf lines = none ↔ chassisValue lines = "" ∨ massValue lines = none) ∧
    (∀ u, parseMtf lines = some u →
      u.chassis = chassisValue lines ∧ some u.tonnage = massValue lines) := by
  have hch : (lines.foldl pass1Step initPass1).chassis = chassisValue lines := by
    rw [pass1_chassis, chassisValue]
    rfl
  have htn : (lines.foldl pass1Step initPass1).tonnage = massValue lines := by
    rw [pass1_tonnage, massValue]
    cases lastKeyVal "mass" lines <;> rfl
  by_cases hcond : (lines.foldl pass1Step initPass1).chassis = "" ∨
      (lines.foldl pass1Step initPass1).tonnage = none
  · have hnone : parseMtf lines = none := by
      simp only [parseMtf]
      rw [if_pos hcond]
    refine ⟨⟨fun _ => ?_, fun _ => hnone⟩, fun u hu => ?_⟩
    · rcases hcond with h1 | h1
      · exact Or.inl (hch ▸ h1)
      · exact Or.inr (htn ▸ h1)
    · rw [hnone] at hu
      cases hu
  · push_neg at hcond
    obtain ⟨t, ht⟩ : ∃ t, (lines.foldl pass1Step initPass1).tonnage = some t := by
      cases htn2 : (lines.foldl pass1Step initPass1).tonnage with
      | none => exact absurd htn2 hcond.2
      | some t => exact ⟨t, rfl⟩
    have hsome : parseMtf lines = some
        { chassis := (lines.foldl pass1Step initPass1).chassis
          model := (lines.foldl pass1Step initPass1).model
          unit_type := .mech
          tech_base := (lines.foldl pass1Step initPass1).tech_base
          rules_level := (lines.foldl pass1Step initPass1).rules_level
          intro_year := (lines.foldl pass1Step initPass1).intro_year
          source := (lines.foldl pass1Step initPass1).source
          tonnage := ((lines.foldl pass1Step initPass1).tonnage).getD 0
          locations := buildMechLocations (lines.foldl pass1Step initPass1).armor
          loadout := dedupLoadout
            (lines.foldl pass2Step
              ⟨false, (lines.foldl pass1Step initPass1).loadout⟩).loadout
          quirks := (lines.foldl pass1Step initPass1).quirks
          description := (lines.foldl pass1Step initPass1).description
          mech_data := some
            { config := if (lines.foldl pass1Step initPass1).config = "" then "Biped"
                else (lines.foldl pass1Step initPass1).config
              is_omnimech := (lines.foldl pass1Step initPass1).is_omnimech
              engine_rating := (lines.foldl pass1Step initPass1).engine_rating
              engine_type := (lines.foldl pass1Step initPass1).engine_type
              walk_mp := (lines.foldl pass1Step initPass1).walk_mp
              jump_mp := (lines.foldl pass1Step initPass1).jump_mp
              heat_sink_count := (lines.foldl pass1Step initPass1).heat_sink_count
              heat_sink_type := (lines.foldl pass1Step initPass1).heat_sink_type
              structure_type := (lines.foldl pass1Step initPass1).structure_type
              armor_type := (lines.foldl pass1Step initPass1).armor_type
              gyro_type := (lines.foldl pass1Step initPass1).gyro_type
              cockpit_type := (lines.foldl pass1Step initPass1).cockpit_type
              myomer_type := (lines.foldl pass1Step initPass1).myomer_type } } := by
      simp only [parseMtf]
      rw [if_neg (by push_neg; exact hcond)]
    refine ⟨⟨fun h => ?_, fun h => ?_⟩, fun u hu => ?_⟩
    · rw [hsome] at h
      cases h
    · rcases h with h1 | h1
      · exact absurd (hch.trans h1) hcond.1
      · exact absurd (htn.trans h1) hcond.2
    · rw [hsome] at hu
      injection hu with h2
      subst h2
      refine ⟨hch, ?_⟩
      show some (((lines.foldl pass1Step initPass1).tonnage).getD 0) = massValue lines
      rw [← htn, ht]
      rfl

/-- C2 witness: an input with only a mass fails; an input with chassis and
mass parses with the exact chassis. -/
theorem c2_parse_mandatory_fields_witness :
    parseMtf ["mass:100"] = none ∧
    (parseMtf ["chassis:Atlas", "mass:100"]).map (fun u => u.chassis) = some "Atlas" := by
  constructor
  · exact (c2_parse_mandatory_fields ["mass:100"]).1.mpr (Or.inl (by decide))
  · cases hp : parseMtf ["chassis:Atlas", "mass:100"] with
    | none =>
      exact absurd ((c2_parse_mandatory_fields ["chassis:Atlas", "mass:100"]).1.mp hp)
        (by decide)
    | some u =>
      have h := ((c2_parse_mandatory_fields ["chassis:Atlas", "mass:100"]).2 u hp).1
      rw [Option.map, h]
      decide

/-! ## C10: the format-A parser always yields a mech with config data -/

/-- The option-accumulator fold of `lastKeyVal` agrees with the direct
fold through `firstWordOr` (config instance). -/
theorem config_opt_fold (lines : List String) : ∀ (o : Option String) (a : String),
    (match
        List.foldl
          (fun acc l =>
            match keyValOf l with
            | some kv => if kv.1 = "config" then some kv.2 else acc
            | none => acc) o lines with
      | some v => firstWordOr v
      | none => a) =
      List.foldl
        (fun acc l =>
          match keyValOf l with
          | some kv => if kv.1 = "config" then firstWordOr kv.2 else acc
          | none => acc)
        (match o with | some v => firstWordOr v | none => a) lines := by
  induction lines with
  | nil => intro o a; rfl
  | cons l t ih =>
    intro o a
    rw [List.foldl_cons, List.foldl_cons, ih]
    congr 1
    cases hkv : keyValOf l with
    | none => rfl
    | some kv =>
      dsimp only
      split_ifs <;> rfl

/-- The first pass accumulates the config as the direct fold. -/
theorem pass1_config_fold (lines : List String) : ∀ s : Pass1State,
    (lines.foldl pass1Step s).config =
      List.foldl
        (fun acc l =>
          match keyValOf l with
          | some kv => if kv.1 = "config" then firstWordOr kv.2 else acc
          | none => acc) s.config lines := by
  induction lines with
  | nil => intro s; rfl
  | cons l t ih =>
    intro s
    rw [List.foldl_cons, List.foldl_cons, ih (pass1Step s l), pass1Step_config]

/-- The config of the completed first pass is the first word of the last
`config:` value. -/
theorem pass1_config (lines : List String) (s : Pass1State) :
    (lines.foldl pass1Step s).config =
      (match lastKeyVal "config" lines with
       | some v => firstWordOr v
       | none => s.config) := by
  rw [pass1_config_fold, lastKeyVal, config_opt_fold]

/-- Without any `config:` key/value line there is no last config value. -/
theorem lastKeyVal_config_none (lines : List String)
    (h : ∀ l ∈ lines, isConfigLine l = false) :
    lastKeyVal "config" lines = none := by
  rw [lastKeyVal]
  induction lines with
  | nil => rfl
  | cons l t ih =>
    rw [List.foldl_cons]
    have hl := h l (List.mem_cons_self l t)
    have hstep :
        (match keyValOf l with
          | some kv => if kv.1 = "config" then some kv.2 else (none : Option String)
          | none => none) = none := by
      rw [isConfigLine] at hl
      cases hkv : keyValOf l with
      | none => rfl
      | some kv =>
        rw [hkv] at hl
        dsimp only at hl ⊢
        rw [if_neg (by simpa using hl)]
    rw [hstep]
    exact ih fun l2 hl2 => h l2 (List.mem_cons_of_mem _ hl2)

/-- C10: whenever `parse_mtf` succeeds, the unit is classified as a mech
(never vehicle, fighter or other) and carries a mech-data payload whose
config is non-empty, defaulting to `Biped` when the source has no
`config:` key/value line. -/
theorem c10_always_mech (lines : List String) (u : ParsedUnit)
    (h : parseMtf lines = some u) :
    u.unit_type = .mech ∧
    ∃ md, u.mech_data = some md ∧ md.config ≠ "" ∧
      ((∀ l ∈ lines, isConfigLine l = false) → md.config = "Biped") := by
  simp only [parseMtf] at h
  by_cases hcond : (lines.foldl pass1Step initPass1).chassis = "" ∨
      (lines.foldl pass1Step initPass1).tonnage = none
  · rw [if_pos hcond] at h
    cases h
  · rw [if_neg hcond] at h
    injection h with h2
    subst h2
    refine ⟨rfl, _, rfl, ?_, ?_⟩
    · dsimp only
      split_ifs with hcfg
      · decide
      · exact hcfg
    · intro hnone
      dsimp only
      have : (lines.foldl pass1Step initPass1).config = "" := by
        rw [pass1_config, lastKeyVal_config_none lines hnone]
        rfl
      rw [if_pos this]

/-- C10 witness: a minimal chassis/mass input parses as a mech with the
default `Biped` config. -/
theorem c10_always_mech_witness :
    ∃ u, parseMtf ["chassis:Atlas", "mass:100"] = some u ∧
      u.unit_type = .mech ∧
      ∃ md, u.mech_data = some md ∧ md.config = "Biped" := by
  cases hp : parseMtf ["chassis:Atlas", "mass:100"] with
  | none => exact absurd hp (by decide)
  | some u =>
    obtain ⟨h1, md, h2, _, h4⟩ := c10_always_mech ["chassis:Atlas", "mass:100"] u hp
    exact ⟨u, rfl, h1, md, h2, h4 (by decide)⟩

/-! ## C7: rear-torso armor codes redirect into the torso's rear slot -/

/-- Lookup after updating the same key. -/
theorem armorGet_update_same (k : String)
    (f : Option Int × Option Int → Option Int × Option Int) :
    ∀ m : ArmorMap, armorGet (armorUpdate k f m) k =
      some (f ((armorGet m k).getD (none, none))) := by
  intro m
  induction m with
  | nil => simp [armorUpdate, armorGet]
  | cons p rest ih =>
    obtain ⟨pk, pv⟩ := p
    by_cases hk : pk = k
    · rw [armorUpdate, if_pos hk, armorGet, if_pos hk, armorGet, if_pos hk]
      rfl
    · rw [armorUpdate, if_neg hk, armorGet, if_neg hk, armorGet, if_neg hk, ih]

/-- Lookup after updating a different key. -/
theorem armorGet_update_other (k k2 : String) (hne : k2 ≠ k)
    (f : Option Int × Option Int → Option Int × Option Int) :
    ∀ m : ArmorMap, armorGet (armorUpdate k f m) k2 = armorGet m k2 := by
  intro m
  induction m with
  | nil => simp [armorUpdate, armorGet, Ne.symm hne]
  | cons p rest ih =>
    obtain ⟨pk, pv⟩ := p
    by_cases hk : pk = k
    · have hp2 : ¬ pk = k2 := by
        rw [hk]
        exact fun h => hne h.symm
      rw [armorUpdate, if_pos hk, armorGet, if_neg hp2, armorGet, if_neg hp2]
    · rw [armorUpdate, if_neg hk, armorGet, armorGet]
      by_cases hk2 : pk = k2
      · rw [if_pos hk2, if_pos hk2]
      · rw [if_neg hk2, if_neg hk2, ih]

/-- Setting the rear slot of a key makes its rear armor that value. -/
theorem setRear_rear_same (k2 : String) (x : Option Int) (m : ArmorMap) :
    armorGet (armorSetRear k2 x m) k2 =
      some (((armorGet m k2).getD (none, none)).1, x) :=
  armorGet_update_same k2 _ m

/-- Setting the rear slot of a different key leaves a lookup unchanged. -/
theorem setRear_rear_other (k2 mk : String) (hne : mk ≠ k2) (x : Option Int)
    (m : ArmorMap) : armorGet (armorSetRear k2 x m) mk = armorGet m mk :=
  armorGet_update_other k2 mk hne _ m

/-- Setting any front slot preserves the rear slot of a present key. -/
theorem setFront_rear (k2 mk : String) (x : Option Int) (m : ArmorMap)
    (fch rv : Option Int) (hm : armorGet m mk = some (fch, rv)) :
    ∃ f2, armorGet (armorSetFront k2 x m) mk = some (f2, rv) := by
  by_cases h : mk = k2
  · subst h
    refine ⟨x, ?_⟩
    rw [armorSetFront, armorGet_update_same mk _ m, hm]
    rfl
  · exact ⟨fch, by rw [armorSetFront, armorGet_update_other k2 mk h _ m, hm]⟩

/-- Processing a rear-torso armor line stores the parsed value in the
matching torso's rear slot. -/
theorem pass1Step_rear_set (s : Pass1State) (line code mkey locName v : String)
    (hc : (code, mkey, locName) ∈ rearCodeTargets)
    (hkv : armorKVOf line = some (code, v)) :
    ∃ fch, armorGet (pass1Step s line).armor mkey = some (fch, parseI32 v) := by
  simp only [rearCodeTargets, List.mem_cons, List.not_mem_nil, or_false,
    Prod.mk.injEq] at hc
  rw [pass1Step_armor]
  cases hkv0 : keyValOf line with
  | none =>
    rw [armorKVOf, hkv0] at hkv
    cases hkv
  | some kv =>
    rw [armorKVOf, hkv0] at hkv
    dsimp only at hkv
    cases hstrip : stripSuffixOpt " armor" kv.1 with
    | none =>
      rw [hstrip] at hkv
      cases hkv
    | some rest =>
      rw [hstrip] at hkv
      dsimp only at hkv
      by_cases hz : strToUpper (strTrim rest) = ""
      · rw [if_pos hz] at hkv
        cases hkv
      · rw [if_neg hz] at hkv
        injection hkv with hkv2
        have hcEq : strToUpper (strTrim rest) = code := congrArg Prod.fst hkv2
        have hvEq : kv.2 = v := congrArg Prod.snd hkv2
        simp only [armorLineApply, hstrip]
        rw [hcEq, hvEq]
        rcases hc with ⟨rfl, rfl, _⟩ | ⟨⟨rfl, rfl, _⟩ | ⟨rfl, rfl, _⟩⟩ <;>
          rw [if_neg (by decide)] <;>
          exact ⟨_, setRear_rear_same _ _ _⟩

/-- A line that is not a rear-armor line for `code` preserves the rear
slot of the torso `code` redirects to. -/
theorem pass1Step_rear_preserve (s : Pass1State) (line code mkey locName : String)
    (rv : Option Int)
    (hc : (code, mkey, locName) ∈ rearCodeTargets)
    (hne : armorCodeOf line ≠ some code)
    (h : ∃ fch, armorGet s.armor mkey = some (fch, rv)) :
    ∃ fch, armorGet (pass1Step s line).armor mkey = some (fch, rv) := by
  simp only [rearCodeTargets, List.mem_cons, List.not_mem_nil, or_false,
    Prod.mk.injEq] at hc
  rw [pass1Step_armor]
  cases hkv0 : keyValOf line with
  | none => exact h
  | some kv =>
    dsimp only
    cases hstrip : stripSuffixOpt " armor" kv.1 with
    | none =>
      simp only [armorLineApply, hstrip]
      exact h
    | some rest =>
      simp only [armorLineApply, hstrip]
      by_cases hz : strToUpper (strTrim rest) = ""
      · rw [if_pos hz]
        exact h
      · rw [if_neg hz]
        have hcode_ne : strToUpper (strTrim rest) ≠ code := by
          intro heq
          apply hne
          rw [armorCodeOf, armorKVOf, hkv0]
          dsimp only
          rw [hstrip]
          dsimp only
          rw [if_neg hz]
          simp [heq]
        obtain ⟨fch, hm⟩ := h
        by_cases h1 : strToUpper (strTrim rest) = "RTL"
        · rw [if_pos h1]
          rcases hc with ⟨rfl, rfl, _⟩ | ⟨⟨rfl, rfl, _⟩ | ⟨rfl, rfl, _⟩⟩
          · exact absurd h1 hcode_ne
          · exact ⟨fch, by rw [setRear_rear_other "LT" "RT" (by decide), hm]⟩
          · exact ⟨fch, by rw [setRear_rear_other "LT" "CT" (by decide), hm]⟩
        · rw [if_neg h1]
          by_cases h2 : strToUpper (strTrim rest) = "RTR"
          · rw [if_pos h2]
            rcases hc with ⟨rfl, rfl, _⟩ | ⟨⟨rfl, rfl, _⟩ | ⟨rfl, rfl, _⟩⟩
            · exact ⟨fch, by rw [setRear_rear_other "RT" "LT" (by decide), hm]⟩
            · exact absurd h2 hcode_ne
            · exact ⟨fch, by rw [setRear_rear_other "RT" "CT" (by decide), hm]⟩
          · rw [if_neg h2]
            by_cases h3 : strToUpper (strTrim rest) = "RTC"
            · rw [if_pos h3]
              rcases hc with ⟨rfl, rfl, _⟩ | ⟨⟨rfl, rfl, _⟩ | ⟨rfl, rfl, _⟩⟩
              · exact ⟨fch, by rw [setRear_rear_other "CT" "LT" (by decide), hm]⟩
              · exact ⟨fch, by rw [setRear_rear_other "CT" "RT" (by decide), hm]⟩
              · exact absurd h3 hcode_ne
            · rw [if_neg h3]
              exact setFront_rear _ mkey _ s.armor fch rv hm

/-- The rear-slot invariant survives any run of lines without a rear-armor
line for `code`. -/
theorem pass1_fold_rear_preserve (code mkey locName : String) (rv : Option Int)
    (hc : (code, mkey, locName) ∈ rearCodeTargets) :
    ∀ (post : List String) (s : Pass1State),
      (∀ l ∈ post, armorCodeOf l ≠ some code) →
      (∃ fch, armorGet s.armor mkey = some (fch, rv)) →
      ∃ fch, armorGet (post.foldl pass1Step s).armor mkey = some (fch, rv) := by
  intro post
  induction post with
  | nil => intro s _ h; exact h
  | cons l t ih =>
    intro s hno h
    rw [List.foldl_cons]
    exact ih (pass1Step s l) (fun l2 hl2 => hno l2 (List.mem_cons_of_mem _ hl2))
      (pass1Step_rear_preserve s l code mkey locName rv hc
        (hno l (List.mem_cons_self l t)) h)

/-- A present armor-map key contributes its location record. -/
theorem buildMechLocations_mem (m : ArmorMap) (mk locName : String)
    (fr : Option Int × Option Int)
    (htab : (mk, locName) ∈ mtfLocTable) (hm : armorGet m mk = some fr) :
    (⟨locName, fr.1, fr.2, none⟩ : ParsedLocation) ∈ buildMechLocations m := by
  rw [buildMechLocations]
  exact List.mem_filterMap.mpr ⟨(mk, locName), htab, by rw [hm]; rfl⟩

/-- Every built location record carries one of the eight canonical
location names. -/
theorem buildMechLocations_names (m : ArmorMap) :
    ∀ x ∈ buildMechLocations m, x.location ∈ mtfLocTable.map Prod.snd := by
  intro x hx
  rw [buildMechLocations] at hx
  obtain ⟨cl, hcl, hmap⟩ := List.mem_filterMap.mp hx
  cases harm : armorGet m cl.1 with
  | none => rw [harm] at hmap; cases hmap
  | some fr =>
    rw [harm] at hmap
    injection hmap with h2
    subst h2
    exact List.mem_map.mpr ⟨cl, hcl, rfl⟩

/-- C7: for every format-A input containing an armor line whose key
carries a rear-torso code (`RTL`, `RTR` or `RTC`, with no later armor line
for the same code), a successful parse stores that line's value in the
rear-armor slot of the corresponding torso location (left, right or
center), and every location record carries one of the eight canonical
names — no record is named after the rear-torso key itself. -/
theorem c7_rear_armor_redirect (pre post : List String) (line : String)
    (code mkey locName v : String) (u : ParsedUnit)
    (hc : (code, mkey, locName) ∈ rearCodeTargets)
    (hline : armorKVOf line = some (code, v))
    (hpost : ∀ l ∈ post, armorCodeOf l ≠ some code)
    (hp : parseMtf (pre ++ line :: post) = some u) :
    (∃ loc ∈ u.locations, loc.location = locName ∧ loc.rear_armor = parseI32 v) ∧
    ∀ loc ∈ u.locations, loc.location ∈ mtfLocTable.map Prod.snd := by
  have harm : ∃ fch,
      armorGet ((pre ++ line :: post).foldl pass1Step initPass1).armor mkey =
        some (fch, parseI32 v) := by
    rw [List.foldl_append, List.foldl_cons]
    exact pass1_fold_rear_preserve code mkey locName (parseI32 v) hc post _ hpost
      (pass1Step_rear_set _ line code mkey locName v hc hline)
  obtain ⟨fch, harm⟩ := harm
  have htab : (mkey, locName) ∈ mtfLocTable := by
    simp only [rearCodeTargets, List.mem_cons, List.not_mem_nil, or_false,
      Prod.mk.injEq] at hc
    rcases hc with ⟨_, rfl, rfl⟩ | ⟨⟨_, rfl, rfl⟩ | ⟨_, rfl, rfl⟩⟩ <;> decide
  simp only [parseMtf] at hp
  by_cases hcond : ((pre ++ line :: post).foldl pass1Step initPass1).chassis = "" ∨
      ((pre ++ line :: post).foldl pass1Step initPass1).tonnage = none
  · rw [if_pos hcond] at hp
    cases hp
  · rw [if_neg hcond] at hp
    injection hp with h2
    subst h2
    exact ⟨⟨⟨locName, fch, parseI32 v, none⟩,
        buildMechLocations_mem _ mkey locName (fch, parseI32 v) htab harm, rfl, rfl⟩,
      buildMechLocations_names _⟩

/-- C7 witness: an `RTL armor:7` line lands in the left torso's rear slot
and no location record is named `RTL`. -/
theorem c7_rear_armor_redirect_witness :
    ∃ u, parseMtf ["chassis:A", "mass:20", "RTL armor:7"] = some u ∧
      (∃ loc ∈ u.locations, loc.location = "left_torso" ∧ loc.rear_armor = some 7) ∧
      ∀ loc ∈ u.locations, loc.location ∈ mtfLocTable.map Prod.snd := by
  cases hp : parseMtf ["chassis:A", "mass:20", "RTL armor:7"] with
  | none => exact absurd hp (by decide)
  | some u =>
    obtain ⟨⟨loc, hmem, hname, hrear⟩, hall⟩ :=
      c7_rear_armor_redirect ["chassis:A", "mass:20"] [] "RTL armor:7"
        "RTL" "LT" "left_torso" "7" u (by decide) (by decide)
        (by intro l hl; cases hl) hp
    refine ⟨u, rfl, ⟨loc, hmem, hname, ?_⟩, hall⟩
    rw [hrear]
    decide
